import Mathlib

/-!
# IRIS Registry — formal verification of the Registry Consistency Core

Shallow embedding, in Lean 4, of the IRIS registry service
(`src/server.ts`, `src/rarity.ts`, `src/utils.ts`, Prisma schema).

Conventions of the embedding:

* Timestamps are naturals (milliseconds since epoch), mirroring JS `Date`
  comparisons; each handler invocation receives a single `now` parameter
  standing for the `new Date()` / `Date.now()` calls made during that
  invocation.
* `sha256` is a cryptographic primitive; it is carried as an explicit
  function parameter `(sha256 : String → String)` wherever `rarity.ts`
  calls `crypto.createHash("sha256")`.
* Databases rows live in lists; Prisma `findUnique` is `List.find?` on the
  primary key, `update` (by unique key) and `updateMany` are `List.map`
  with a key / filter guard.  A Prisma interactive transaction whose
  callback throws is rolled back, so each transaction in the embedding
  either returns the fully-updated state or the untouched input state.
* Sources of nondeterminism (the `ORDER BY random()` row pick,
  `crypto.randomInt`, `crypto.randomUUID`) are explicit parameters.
-/

set_option maxRecDepth 2000

namespace IrisRegistry

/-! ## Commitment engine (`src/rarity.ts`) -/

/-- `computeLeaf` of `rarity.ts`: leaf hash of one unit,
`sha256(irisId + "|" + rarity + "|" + nonce)`. -/
def computeLeaf (sha256 : String → String) (irisId rarity nonce : String) : String :=
  sha256 (irisId ++ "|" ++ rarity ++ "|" ++ nonce)

/-- `hashPair` of `rarity.ts`: the two children are sorted lexicographically
before being concatenated and hashed. -/
def hashPair (sha256 : String → String) (a b : String) : String :=
  if a < b then sha256 (a ++ b) else sha256 (b ++ a)

/-- One level-up step of `buildMerkleTree`: adjacent nodes are paired
left-to-right, a trailing odd node is paired with itself
(`current[i + 1] ?? current[i]`). -/
def pairUp (sha256 : String → String) : List String → List String
  | [] => []
  | [a] => [hashPair sha256 a a]
  | a :: b :: rest => hashPair sha256 a b :: pairUp sha256 rest

theorem pairUp_length (sha256 : String → String) :
    ∀ l : List String, (pairUp sha256 l).length = (l.length + 1) / 2
  | [] => by simp [pairUp]
  | [_] => by simp [pairUp]
  | _ :: _ :: rest => by
      simp only [pairUp, List.length_cons, pairUp_length sha256 rest]
      omega

/-- `buildMerkleTree` of `rarity.ts`, as the list of levels from the leaves
up to the root level.  The source returns `[leaves]` when `leaves.length`
is `0` (explicitly) or `1` (the `while` loop body never runs), and
otherwise prepends `leaves` to the levels of the paired-up list. -/
def buildMerkleTree (sha256 : String → String) (leaves : List String) : List (List String) :=
  if leaves.length ≤ 1 then [leaves]
  else leaves :: buildMerkleTree sha256 (pairUp sha256 leaves)
termination_by leaves.length
decreasing_by
  simp only [pairUp_length]
  omega

/-- `getMerkleRoot` of `rarity.ts`: first node of the topmost level,
`""` on degenerate input. -/
def getMerkleRoot (levels : List (List String)) : String :=
  match levels.getLast? with
  | none => ""
  | some top => top.headD ""

/-- The sibling node used by `getMerkleProof`:
`nodes[idx ^ 1] ?? nodes[idx]` (the node itself when the partner slot is
past the end of the level). -/
def siblingNode (nodes : List String) (idx : Nat) : String :=
  ((nodes.get? (idx ^^^ 1)).orElse (fun _ => nodes.get? idx)).getD ""

/-- `getMerkleProof` of `rarity.ts`: walks every level except the topmost,
collecting the sibling at each level while halving the index. -/
def getMerkleProof : List (List String) → Nat → List String
  | [], _ => []
  | [_], _ => []
  | nodes :: next :: rest, idx =>
      siblingNode nodes idx :: getMerkleProof (next :: rest) (idx / 2)

/-- `verifyMerkleProof` of `rarity.ts`: fold the sibling path into the leaf
with the canonical-pair hash and compare with the root. -/
def verifyMerkleProof (sha256 : String → String) (leaf : String) (proof : List String)
    (root : String) : Bool :=
  (proof.foldl (fun h s => hashPair sha256 h s) leaf) == root

theorem hashPair_comm (sha256 : String → String) (a b : String) :
    hashPair sha256 a b = hashPair sha256 b a := by
  unfold hashPair
  rcases lt_trichotomy a b with h | h | h
  · rw [if_pos h, if_neg (not_lt_of_lt h)]
  · subst h; rfl
  · rw [if_neg (not_lt_of_lt h), if_pos h]

theorem nat_two_mul_xor_one (k : Nat) : 2 * k ^^^ 1 = 2 * k + 1 := by
  apply Nat.eq_of_testBit_eq
  intro i
  cases i with
  | zero => simp [Nat.testBit_xor, Nat.testBit_zero, Nat.mul_mod_right]
  | succ j =>
      rw [Nat.testBit_xor, Nat.testBit_succ, Nat.testBit_succ, Nat.testBit_succ]
      have h1 : 2 * k / 2 = k := by omega
      have h2 : (2 * k + 1) / 2 = k := by omega
      have h3 : (1 : Nat) / 2 = 0 := by norm_num
      rw [h1, h2, h3]
      simp [Nat.zero_testBit]

theorem nat_two_mul_add_one_xor_one (k : Nat) : (2 * k + 1) ^^^ 1 = 2 * k := by
  apply Nat.eq_of_testBit_eq
  intro i
  cases i with
  | zero => simp [Nat.testBit_xor, Nat.testBit_zero]; omega
  | succ j =>
      rw [Nat.testBit_xor, Nat.testBit_succ, Nat.testBit_succ, Nat.testBit_succ]
      have h1 : 2 * k / 2 = k := by omega
      have h2 : (2 * k + 1) / 2 = k := by omega
      have h3 : (1 : Nat) / 2 = 0 := by norm_num
      rw [h1, h2, h3]
      simp [Nat.zero_testBit]

/-- Two-step list induction used to reason about `pairUp`. -/
theorem twoStepListInduction {α : Type} {P : List α → Prop} (h0 : P [])
    (h1 : ∀ a, P [a]) (h2 : ∀ a b l, P l → P (a :: b :: l)) : ∀ l, P l
  | [] => h0
  | [a] => h1 a
  | a :: b :: rest => h2 a b rest (twoStepListInduction h0 h1 h2 rest)

/-- Hashing a node of one level with its `getMerkleProof` sibling yields the
parent node of the next level. -/
theorem hashPair_siblingNode (sha256 : String → String) :
    ∀ (l : List String) (i : Nat), i < l.length →
      hashPair sha256 (l.getD i "") (siblingNode l i) =
        (pairUp sha256 l).getD (i / 2) "" := by
  intro l
  induction l using twoStepListInduction with
  | h0 => intro i hi; simp at hi
  | h1 a =>
      intro i hi
      have hi0 : i = 0 := by simpa using Nat.lt_one_iff.mp (by simpa using hi)
      subst hi0
      simp [siblingNode, pairUp, List.getD]
  | h2 a b rest ih =>
      intro i hi
      match i with
      | 0 => simp [siblingNode, pairUp, List.getD]
      | 1 =>
          simp [siblingNode, pairUp, List.getD]
          exact hashPair_comm sha256 b a
      | (j + 2) =>
          have hxor : (j + 2) ^^^ 1 = (j ^^^ 1) + 2 := by
            rcases Nat.even_or_odd j with ⟨k, hk⟩ | ⟨k, hk⟩
            · subst hk
              have e1 : 2 * k + 2 = 2 * (k + 1) := by ring
              rw [(by ring : k + k = 2 * k), e1, nat_two_mul_xor_one,
                nat_two_mul_xor_one]
              ring
            · subst hk
              have e1 : 2 * k + 1 + 2 = 2 * (k + 1) + 1 := by ring
              rw [e1, nat_two_mul_add_one_xor_one, nat_two_mul_add_one_xor_one]
              ring
          have hj : j < rest.length := by simp at hi; omega
          have hdiv : (j + 2) / 2 = j / 2 + 1 := by omega
          simp only [siblingNode, hxor, pairUp, hdiv]
          have hget1 : (a :: b :: rest).get? ((j ^^^ 1) + 2) = rest.get? (j ^^^ 1) := rfl
          have hget2 : (a :: b :: rest).get? (j + 2) = rest.get? j := rfl
          have hgetD : (a :: b :: rest).getD (j + 2) "" = rest.getD j "" := rfl
          rw [hget1, hget2, hgetD]
          have hgetD2 : (hashPair sha256 a b :: pairUp sha256 rest).getD (j / 2 + 1) "" =
              (pairUp sha256 rest).getD (j / 2) "" := rfl
          rw [hgetD2]
          exact ih j hj

theorem buildMerkleTree_ne_nil (sha256 : String → String) (leaves : List String) :
    buildMerkleTree sha256 leaves ≠ [] := by
  rw [buildMerkleTree]
  split <;> simp

/-- Folding the generated sibling path into the `i`-th leaf reproduces the
Merkle root. -/
theorem foldl_getMerkleProof_eq_root (sha256 : String → String) (leaves : List String)
    (i : Nat) (hi : i < leaves.length) :
    List.foldl (fun h s => hashPair sha256 h s) (leaves.getD i "")
        (getMerkleProof (buildMerkleTree sha256 leaves) i) =
      getMerkleRoot (buildMerkleTree sha256 leaves) := by
  by_cases hle : leaves.length ≤ 1
  · have hlen1 : leaves.length = 1 := by omega
    match leaves, hlen1 with
    | [a], _ =>
        rw [buildMerkleTree]
        have : i = 0 := by simp at hi; omega
        subst this
        simp [getMerkleProof, getMerkleRoot, List.getD]
  · rw [buildMerkleTree, if_neg hle]
    obtain ⟨next, rest, hnr⟩ :
        ∃ next rest, buildMerkleTree sha256 (pairUp sha256 leaves) = next :: rest := by
      rcases h : buildMerkleTree sha256 (pairUp sha256 leaves) with _ | ⟨x, xs⟩
      · exact absurd h (buildMerkleTree_ne_nil sha256 _)
      · exact ⟨x, xs, rfl⟩
    rw [hnr]
    simp only [getMerkleProof, List.foldl_cons]
    rw [hashPair_siblingNode sha256 leaves i hi]
    have hi2 : i / 2 < (pairUp sha256 leaves).length := by
      rw [pairUp_length]
      omega
    have := foldl_getMerkleProof_eq_root sha256 (pairUp sha256 leaves) (i / 2) hi2
    rw [hnr] at this
    rw [this]
    show getMerkleRoot (next :: rest) = getMerkleRoot (leaves :: next :: rest)
    simp [getMerkleRoot, List.getLast?]
termination_by leaves.length
decreasing_by
  rw [pairUp_length]
  omega

/-- C6: for every leaf list produced by the commitment engine and every leaf
index `i`, verifying the proof generated for index `i` — recomputing the
leaf from (identifier, tier, nonce) and folding in each sibling with the
canonical-pair hash — returns `true` against the root of the tree built
from those leaves. -/
theorem merkle_generated_proof_verifies (sha256 : String → String)
    (entries : List (String × String × String)) (i : Nat)
    (hi : i < entries.length) :
    verifyMerkleProof sha256
      (computeLeaf sha256 (entries.getD i default).1 (entries.getD i default).2.1
        (entries.getD i default).2.2)
      (getMerkleProof
        (buildMerkleTree sha256 (entries.map fun e => computeLeaf sha256 e.1 e.2.1 e.2.2)) i)
      (getMerkleRoot
        (buildMerkleTree sha256 (entries.map fun e => computeLeaf sha256 e.1 e.2.1 e.2.2))) =
      true := by
  have hlen : i < (entries.map fun e => computeLeaf sha256 e.1 e.2.1 e.2.2).length := by
    simpa using hi
  have hleaf :
      (entries.map fun e => computeLeaf sha256 e.1 e.2.1 e.2.2).getD i "" =
        computeLeaf sha256 (entries.getD i default).1 (entries.getD i default).2.1
          (entries.getD i default).2.2 := by
    rw [List.getD_eq_getElem _ _ hlen, List.getElem_map, List.getD_eq_getElem _ _ hi]
  rw [verifyMerkleProof, ← hleaf,
    foldl_getMerkleProof_eq_root sha256 _ i hlen]
  exact beq_self_eq_true _

/-- Witness for C6 at a concrete three-leaf list and index 1. -/
theorem merkle_generated_proof_verifies_witness :
    1 < ([("IRIS-0001", "Common", "aa"), ("IRIS-0002", "Rare", "bb"),
        ("IRIS-0003", "Ultra Rare", "cc")] :
          List (String × String × String)).length ∧
      verifyMerkleProof (fun s => "#" ++ s)
        (computeLeaf (fun s => "#" ++ s)
          (([("IRIS-0001", "Common", "aa"), ("IRIS-0002", "Rare", "bb"),
            ("IRIS-0003", "Ultra Rare", "cc")] :
              List (String × String × String)).getD 1 default).1
          (([("IRIS-0001", "Common", "aa"), ("IRIS-0002", "Rare", "bb"),
            ("IRIS-0003", "Ultra Rare", "cc")] :
              List (String × String × String)).getD 1 default).2.1
          (([("IRIS-0001", "Common", "aa"), ("IRIS-0002", "Rare", "bb"),
            ("IRIS-0003", "Ultra Rare", "cc")] :
              List (String × String × String)).getD 1 default).2.2)
        (getMerkleProof
          (buildMerkleTree (fun s => "#" ++ s)
            (([("IRIS-0001", "Common", "aa"), ("IRIS-0002", "Rare", "bb"),
              ("IRIS-0003", "Ultra Rare", "cc")] :
                List (String × String × String)).map
              fun e => computeLeaf (fun s => "#" ++ s) e.1 e.2.1 e.2.2)) 1)
        (getMerkleRoot
          (buildMerkleTree (fun s => "#" ++ s)
            (([("IRIS-0001", "Common", "aa"), ("IRIS-0002", "Rare", "bb"),
              ("IRIS-0003", "Ultra Rare", "cc")] :
                List (String × String × String)).map
              fun e => computeLeaf (fun s => "#" ++ s) e.1 e.2.1 e.2.2))) = true :=
  ⟨by decide, merkle_generated_proof_verifies (fun s => "#" ++ s)
    [("IRIS-0001", "Common", "aa"), ("IRIS-0002", "Rare", "bb"),
      ("IRIS-0003", "Ultra Rare", "cc")] 1 (by decide)⟩

/-! ## Seeded shuffle and rarity assignment (`src/rarity.ts`) -/

/-- Decimal digit as a character. -/
def digitChar (d : Nat) : Char := Char.ofNat (48 + d)

/-- JS `String(n)` / template interpolation of a non-negative integer:
its decimal representation. -/
def jsNatString (n : Nat) : String :=
  if n = 0 then "0" else String.mk ((Nat.digits 10 n).reverse.map digitChar)

/-- JS `String.prototype.padStart(n, c)`. -/
def padStart (c : Char) (n : Nat) (s : String) : String :=
  String.mk (List.replicate (n - s.length) c ++ s.data)

/-- The simultaneous swap `[out[i], out[j]] = [out[j], out[i]]`. -/
def listSwap (l : List String) (i j : Nat) : List String :=
  (l.set i (l.getD j "")).set j (l.getD i "")

/-- One iteration of the Fisher–Yates loop in `shuffleWithSeed`: the hash
state is re-derived from the previous state and the loop index, and the
element at `i` is swapped with the picked element at `j ≤ i`.
`pick st m` abstracts `Math.floor(parseInt(st.slice(0, 8), 16) / 0xffffffff * m)`
(an IEEE-754 double computation whose only inputs are the hash state and
`m = i + 1`). -/
def shuffleStep (sha256 : String → String) (pick : String → Nat → Nat)
    (acc : List String × String) (i : Nat) : List String × String :=
  let st := sha256 (acc.2 ++ jsNatString i)
  (listSwap acc.1 i (pick st (i + 1)), st)

/-- `shuffleWithSeed` of `rarity.ts`: the loop runs `i` from
`list.length - 1` down to `1`, with initial hash state `sha256(seed)`. -/
def shuffleWithSeed (sha256 : String → String) (pick : String → Nat → Nat)
    (list : List String) (seed : String) : List String :=
  (((List.range' 1 (list.length - 1)).reverse).foldl (shuffleStep sha256 pick)
    (list, sha256 seed)).1

/-- `RARITY_COUNTS` of `rarity.ts`. -/
def RARITY_COUNTS : List (String × Nat) :=
  [("Common", 5000), ("Uncommon", 3000), ("Rare", 1500), ("Ultra Rare", 400),
    ("Artist Edition", 100)]

/-- The tier list of `buildRarityAssignments`: each tier code repeated
`count` times, in table order. -/
def rarityList : List String :=
  (RARITY_COUNTS.map (fun e => List.replicate e.2 e.1)).flatten

/-- The fixed identifier pool `IRIS-0001 .. IRIS-10000`. -/
def irisIds : List String :=
  (List.range 10000).map (fun i => "IRIS-" ++ padStart '0' 4 (jsNatString (i + 1)))

/-- One row of `buildRarityAssignments`. -/
structure Assignment where
  irisId : String
  rarity : String
  nonce : String
  leaf : String
deriving DecidableEq, Inhabited

/-- The nonce of the `i`-th row of `buildRarityAssignments`:
`sha256(seed + "|" + irisId + "|" + rarity).slice(0, 16)`. -/
def assignmentNonce (sha256 : String → String) (pick : String → Nat → Nat)
    (seed : String) (i : Nat) : String :=
  (sha256 (seed ++ "|" ++ (shuffleWithSeed sha256 pick irisIds seed).getD i "" ++
    "|" ++ rarityList.getD i "")).take 16

/-- The `i`-th row of `buildRarityAssignments`: identifier from the
shuffled pool, tier from the expanded tier table, nonce as above, leaf via
`computeLeaf`. -/
def assignmentAt (sha256 : String → String) (pick : String → Nat → Nat)
    (seed : String) (i : Nat) : Assignment :=
  { irisId := (shuffleWithSeed sha256 pick irisIds seed).getD i ""
    rarity := rarityList.getD i ""
    nonce := assignmentNonce sha256 pick seed i
    leaf := computeLeaf sha256 ((shuffleWithSeed sha256 pick irisIds seed).getD i "")
      (rarityList.getD i "") (assignmentNonce sha256 pick seed i) }

/-- `buildRarityAssignments` of `rarity.ts`: shuffle the identifier pool
with the seed, zip with the tier list in table order, derive each nonce as
`sha256(seed + "|" + irisId + "|" + rarity).slice(0, 16)` and each leaf via
`computeLeaf`. -/
def buildRarityAssignments (sha256 : String → String) (pick : String → Nat → Nat)
    (seed : String) : List Assignment :=
  (List.range (shuffleWithSeed sha256 pick irisIds seed).length).map
    (assignmentAt sha256 pick seed)

theorem listSwap_length (l : List String) (i j : Nat) :
    (listSwap l i j).length = l.length := by
  simp [listSwap]

theorem listSwap_perm (l : List String) (i j : Nat) (hi : i < l.length)
    (hj : j < l.length) : (listSwap l i j).Perm l := by
  rw [List.perm_iff_count]
  intro a
  have hgi : l.getD i "" = l[i] := List.getD_eq_getElem l "" hi
  have hgj : l.getD j "" = l[j] := List.getD_eq_getElem l "" hj
  by_cases hij : i = j
  · subst hij
    rw [listSwap, List.set_set, hgi, List.count_set l[i] a l i hi]
    have hle : (if (l[i] == a) = true then 1 else 0) ≤ List.count a l := by
      split
      · next h => exact List.count_pos_iff.mpr (by
          have : l[i] = a := by simpa using h
          exact this ▸ List.getElem_mem hi)
      · exact Nat.zero_le _
    omega
  · rw [listSwap, hgi, hgj]
    have hj2 : j < (l.set i l[j]).length := by simpa using hj
    rw [List.count_set l[i] a (l.set i l[j]) j hj2]
    rw [List.count_set l[j] a l i hi]
    have hjv : (l.set i l[j])[j] = l[j] := by
      rw [List.getElem_set]
      simp [hij]
    rw [hjv]
    have hle : (if (l[i] == a) = true then 1 else 0) ≤ List.count a l := by
      split
      · next h => exact List.count_pos_iff.mpr (by
          have : l[i] = a := by simpa using h
          exact this ▸ List.getElem_mem hi)
      · exact Nat.zero_le _
    omega

theorem shuffleFold_length (sha256 : String → String) (pick : String → Nat → Nat) :
    ∀ (idxs : List Nat) (acc : List String × String),
      ((idxs.foldl (shuffleStep sha256 pick) acc).1).length = acc.1.length
  | [], _ => rfl
  | i :: rest, acc => by
      rw [List.foldl_cons, shuffleFold_length sha256 pick rest]
      simp [shuffleStep, listSwap_length]

theorem shuffleFold_perm (sha256 : String → String) (pick : String → Nat → Nat)
    (hpick : ∀ st m, 0 < m → pick st m < m) :
    ∀ (idxs : List Nat) (acc : List String × String),
      (∀ i ∈ idxs, i < acc.1.length) →
      ((idxs.foldl (shuffleStep sha256 pick) acc).1).Perm acc.1
  | [], _, _ => List.Perm.refl _
  | i :: rest, acc, hb => by
      rw [List.foldl_cons]
      have hi : i < acc.1.length := hb i (by simp)
      have hjlt : pick (sha256 (acc.2 ++ jsNatString i)) (i + 1) < i + 1 :=
        hpick _ _ (Nat.succ_pos i)
      have hj : pick (sha256 (acc.2 ++ jsNatString i)) (i + 1) < acc.1.length := by omega
      have hperm : (shuffleStep sha256 pick acc i).1.Perm acc.1 :=
        listSwap_perm acc.1 i _ hi hj
      have hlen : (shuffleStep sha256 pick acc i).1.length = acc.1.length := by
        simp [shuffleStep, listSwap_length]
      have hrest := shuffleFold_perm sha256 pick hpick rest (shuffleStep sha256 pick acc i)
        (by intro x hx; rw [hlen]; exact hb x (by simp [hx]))
      exact hrest.trans hperm

theorem shuffleWithSeed_length (sha256 : String → String) (pick : String → Nat → Nat)
    (list : List String) (seed : String) :
    (shuffleWithSeed sha256 pick list seed).length = list.length := by
  rw [shuffleWithSeed, shuffleFold_length]

theorem shuffleWithSeed_perm (sha256 : String → String) (pick : String → Nat → Nat)
    (hpick : ∀ st m, 0 < m → pick st m < m) (list : List String) (seed : String) :
    (shuffleWithSeed sha256 pick list seed).Perm list := by
  rw [shuffleWithSeed]
  apply shuffleFold_perm sha256 pick hpick
  intro i hi
  simp only [List.mem_reverse, List.mem_range'_1] at hi
  show i < list.length
  omega

theorem map_getD_range (l : List String) :
    (List.range l.length).map (fun i => l.getD i "") = l := by
  apply List.ext_getElem
  · simp
  · intro i h1 h2
    simp only [List.getElem_map, List.getElem_range]
    exact List.getD_eq_getElem l "" h2

theorem irisIds_length : irisIds.length = 10000 := by
  simp [irisIds]

theorem rarityList_length : rarityList.length = 10000 := by
  rw [rarityList, RARITY_COUNTS]
  simp only [List.map_cons, List.map_nil, List.flatten_cons, List.flatten_nil,
    List.length_append, List.length_replicate, List.length_nil]

attribute [irreducible] irisIds rarityList shuffleWithSeed

theorem buildRarityAssignments_getD (sha256 : String → String)
    (pick : String → Nat → Nat) (seed : String) (i : Nat) (hi : i < 10000) :
    (buildRarityAssignments sha256 pick seed).getD i default =
      assignmentAt sha256 pick seed i := by
  have hslen : (shuffleWithSeed sha256 pick irisIds seed).length = 10000 := by
    rw [shuffleWithSeed_length, irisIds_length]
  have hib2 : i < ((List.range (shuffleWithSeed sha256 pick irisIds seed).length).map
      (assignmentAt sha256 pick seed)).length := by
    rw [List.length_map, List.length_range, hslen]; omega
  rw [buildRarityAssignments, List.getD_eq_getElem _ _ hib2, List.getElem_map,
    List.getElem_range]

/-- C7: `buildRarityAssignments` permutes the fixed identifier list
`IRIS-0001 .. IRIS-10000` using only the hash chain re-derived from the
seed at every permutation step (the swap-target pick being a function of
that chain alone), assigns the unit at shuffled position `i` the `i`-th
tier of the tier table expanded in table order, derives each nonce as a
hash of (seed, identifier, tier), and is a deterministic function of the
seed alone: two runs with the same seed produce identical output. -/
theorem buildRarityAssignments_spec (sha256 : String → String)
    (pick : String → Nat → Nat) (hpick : ∀ st m, 0 < m → pick st m < m)
    (seed : String) :
    ((buildRarityAssignments sha256 pick seed).map (fun a => a.irisId)).Perm irisIds ∧
    (buildRarityAssignments sha256 pick seed).length = 10000 ∧
    (∀ i, i < 10000 →
      ((buildRarityAssignments sha256 pick seed).getD i default).irisId =
        (shuffleWithSeed sha256 pick irisIds seed).getD i "" ∧
      ((buildRarityAssignments sha256 pick seed).getD i default).rarity =
        rarityList.getD i "" ∧
      ((buildRarityAssignments sha256 pick seed).getD i default).nonce =
        (sha256 (seed ++ "|" ++ (shuffleWithSeed sha256 pick irisIds seed).getD i "" ++
          "|" ++ rarityList.getD i "")).take 16) ∧
    (∀ seed2, seed2 = seed →
      buildRarityAssignments sha256 pick seed2 = buildRarityAssignments sha256 pick seed) := by
  have hslen : (shuffleWithSeed sha256 pick irisIds seed).length = 10000 := by
    rw [shuffleWithSeed_length, irisIds_length]
  have hblen : (buildRarityAssignments sha256 pick seed).length = 10000 := by
    simp [buildRarityAssignments, hslen]
  refine ⟨?_, hblen, ?_, ?_⟩
  · have hmap : (buildRarityAssignments sha256 pick seed).map (fun a => a.irisId) =
        shuffleWithSeed sha256 pick irisIds seed := by
      rw [buildRarityAssignments, List.map_map]
      exact map_getD_range (shuffleWithSeed sha256 pick irisIds seed)
    rw [hmap]
    exact shuffleWithSeed_perm sha256 pick hpick irisIds seed
  · intro i hi
    rw [buildRarityAssignments_getD sha256 pick seed i hi]
    refine ⟨rfl, rfl, ?_⟩
    simp only [assignmentAt, assignmentNonce]
  · intro seed2 h
    rw [h]

/-- Witness for C7 with the identity hash, the always-zero pick and seed
`s1`. -/
theorem buildRarityAssignments_spec_witness :
    ((buildRarityAssignments (fun s => s) (fun _ _ => 0) "s1").map
        (fun a => a.irisId)).Perm irisIds ∧
    (buildRarityAssignments (fun s => s) (fun _ _ => 0) "s1").length = 10000 ∧
    (∀ i, i < 10000 →
      ((buildRarityAssignments (fun s => s) (fun _ _ => 0) "s1").getD i default).irisId =
        (shuffleWithSeed (fun s => s) (fun _ _ => 0) irisIds "s1").getD i "" ∧
      ((buildRarityAssignments (fun s => s) (fun _ _ => 0) "s1").getD i default).rarity =
        rarityList.getD i "" ∧
      ((buildRarityAssignments (fun s => s) (fun _ _ => 0) "s1").getD i default).nonce =
        ((fun s => s) ("s1" ++ "|" ++
          (shuffleWithSeed (fun s => s) (fun _ _ => 0) irisIds "s1").getD i "" ++
          "|" ++ rarityList.getD i "")).take 16) ∧
    (∀ seed2, seed2 = "s1" →
      buildRarityAssignments (fun s => s) (fun _ _ => 0) seed2 =
        buildRarityAssignments (fun s => s) (fun _ _ => 0) "s1") :=
  buildRarityAssignments_spec (fun s => s) (fun _ _ => 0)
    (fun _ _ hm => hm) "s1"

/-! ## Registry data model (Prisma schema: `Artwork`, `Reservation`, `Event`,
`WebhookReceipt`) -/

/-- The `ArtworkStatus` enum (initial migration plus the `shopify_failed`
fault value used by `server.ts`). -/
inductive ArtworkStatus
  | available
  | reserved
  | assigned
  | activated
  | shopify_failed
deriving DecidableEq

/-- The `ReservationStatus` enum. -/
inductive ReservationStatus
  | active
  | confirmed
  | expired
deriving DecidableEq

/-- The stored `rarity_proof` JSON: nonce, sibling path and root
(the shape read back by `GET /apps/iris/proof/:irisId`). -/
structure RarityProof where
  nonce : String
  proof : List String
  root : String
deriving DecidableEq

/-- One `Artwork` row (columns used by the core handlers). -/
structure Artwork where
  iris_id : String
  status : ArtworkStatus
  rarity_code : Option String := none
  rarity_proof : Option RarityProof := none
  assigned_order_id : Option String := none
  assigned_customer_email : Option String := none
  owner_email : Option String := none
  pin_code : Option String := none
  pin_last4 : Option String := none
  pin_attempts : Nat := 0
  pin_locked_until : Option Nat := none
  activated_at : Option Nat := none
  proof_token : Option String := none
deriving DecidableEq

/-- One `Reservation` row. -/
structure Reservation where
  token : String
  iris_id : String
  status : ReservationStatus
  expires_at : Nat
deriving DecidableEq

/-- One `Event` row (audit trail); the JSON payload is not modelled beyond
the referenced unit, type tag and actor. -/
structure Event where
  iris_id : String
  type : String
  actor : String
deriving DecidableEq

/-- The persistent store: the four tables.  `receipts` holds the
`shopify_webhook_id` values of the `WebhookReceipt` table (unique index). -/
structure RegistryState where
  artworks : List Artwork
  reservations : List Reservation
  events : List Event
  receipts : List String
deriving DecidableEq

/-- Prisma `artwork.findUnique({ where: { iris_id } })`. -/
def findArtwork (s : RegistryState) (id : String) : Option Artwork :=
  s.artworks.find? (fun a => a.iris_id == id)

/-- Prisma `reservation.findUnique({ where: { token } })`. -/
def findReservation (s : RegistryState) (tok : String) : Option Reservation :=
  s.reservations.find? (fun r => r.token == tok)

/-- Prisma `artwork.update({ where: { iris_id } })` on an existing row. -/
def updateArtworkList (l : List Artwork) (id : String) (f : Artwork → Artwork) :
    List Artwork :=
  l.map (fun a => if a.iris_id == id then f a else a)

/-- Prisma `reservation.update({ where: { token } })` on an existing row. -/
def updateReservationList (l : List Reservation) (tok : String)
    (f : Reservation → Reservation) : List Reservation :=
  l.map (fun r => if r.token == tok then f r else r)

/-! ## String helpers used by the handlers -/

/-- JS `toUpperCase` (ASCII range, as used on IRIS identifiers). -/
def jsToUpper (s : String) : String := String.mk (s.data.map Char.toUpper)

/-- JS `toLowerCase` (ASCII range, as used on emails). -/
def jsToLower (s : String) : String := String.mk (s.data.map Char.toLower)

/-- JS `trim`. -/
def jsTrim (s : String) : String :=
  String.mk (((s.data.dropWhile Char.isWhitespace).reverse.dropWhile
    Char.isWhitespace).reverse)

/-- Characters kept by `sanitizeIrisId`: `[A-Z0-9-]`. -/
def isIrisChar (c : Char) : Bool :=
  (('A' ≤ c && c ≤ 'Z') || ('0' ≤ c && c ≤ '9') || c == '-')

/-- `sanitizeIrisId` of `server.ts`:
`value.toUpperCase().replace(/[^A-Z0-9-]/g, "")`. -/
def sanitizeIrisId (s : String) : String :=
  String.mk ((jsToUpper s).data.filter isIrisChar)

/-- JS `s.slice(-4)`: the last four characters (the whole string when it is
shorter). -/
def sliceLast4 (s : String) : String :=
  String.mk (s.data.drop (s.data.length - 4))

/-- `generatePin` of `server.ts` applied to the draw
`v = crypto.randomInt(0, 1_000_000)`:
`v.toString().padStart(6, "0")`. -/
def generatePin (v : Nat) : String := padStart '0' 6 (jsNatString v)

/-- JS truthiness of a nullable string column: `null`/`undefined` and `""`
are falsy. -/
def jsTruthy (o : Option String) : Bool := o.getD "" != ""

/-! ## Allocator — `POST /apps/iris/reserve-random` -/

/-- Result of the allocator. -/
inductive ReserveResult
  | ok (reservationToken irisId : String)
  | noAvailableArtwork
deriving DecidableEq

/-- The identifiers of the currently `available` rows (the candidate set of
the `SELECT ... WHERE status = 'available' ORDER BY random() ... FOR UPDATE
SKIP LOCKED` query). -/
def availableIds (s : RegistryState) : List String :=
  (s.artworks.filter (fun a => a.status == ArtworkStatus.available)).map
    (fun a => a.iris_id)

/-- The `active` reservation row created by the allocator, expiring after
the TTL. -/
def newReservation (now ttlMinutes : Nat) (newTok irisId : String) : Reservation :=
  { token := newTok, iris_id := irisId, status := ReservationStatus.active,
    expires_at := now + ttlMinutes * 60 * 1000 }

/-- `POST /apps/iris/reserve-random`: pick one available row (`pickIdx`
abstracts `ORDER BY random() LIMIT 1`), mark it `reserved`, create an
`active` reservation expiring after the TTL, and append a `reserved`
Event — all in one transaction.  `newTok` is the generated reservation
token. -/
def reserveRandom (now ttlMinutes pickIdx : Nat) (newTok : String)
    (s : RegistryState) : ReserveResult × RegistryState :=
  match (availableIds s).get? pickIdx with
  | none => (ReserveResult.noAvailableArtwork, s)
  | some irisId =>
      (ReserveResult.ok newTok irisId,
        { artworks := updateArtworkList s.artworks irisId
            (fun a => { a with status := ArtworkStatus.reserved })
          reservations := s.reservations ++ [newReservation now ttlMinutes newTok irisId]
          events := s.events ++
            [{ iris_id := irisId, type := "reserved", actor := "system" }]
          receipts := s.receipts })

/-! ## Reservation reaper — `releaseExpiredReservations` -/

/-- The batch read at the start of a sweep: `active` reservations whose
expiry has passed, at most 200. -/
def expiredBatch (now : Nat) (s : RegistryState) : List Reservation :=
  (s.reservations.filter
    (fun r => r.status == ReservationStatus.active && r.expires_at < now)).take 200

/-- One per-reservation transaction of the sweep: mark the reservation
`expired`, revert its unit to `available` only if the unit is still
`reserved` (`updateMany` with a status filter), append a
`reservation_expired` Event. -/
def releaseOne (st : RegistryState) (r : Reservation) : RegistryState :=
  { artworks := st.artworks.map (fun a =>
      if a.iris_id == r.iris_id && a.status == ArtworkStatus.reserved then
        { a with status := ArtworkStatus.available }
      else a)
    reservations := updateReservationList st.reservations r.token
      (fun x => { x with status := ReservationStatus.expired })
    events := st.events ++
      [{ iris_id := r.iris_id, type := "reservation_expired", actor := "system" }]
    receipts := st.receipts }

/-- `releaseExpiredReservations`: process the batch in order. -/
def reaperSweep (now : Nat) (s : RegistryState) : RegistryState :=
  (expiredBatch now s).foldl releaseOne s

/-! ## Event applier — `POST /webhooks/shopify/orders-paid` -/

/-- Failure modes of one `confirmReservation` transaction. -/
inductive ConfirmError
  | reservationNotActive
  | reservationExpired
  | updateFailed
deriving DecidableEq

/-- Whether `confirmReservation` appends a `pin_generated` Event: the row
had no truthy PIN yet and the stored PIN is non-empty
(`generatedPin = artwork?.pin_code ? null : pinCode` then
`if (generatedPin)`). -/
def pinGeneratedFlag (oldPin : Option String) (pinCode : String) : Bool :=
  !(jsTruthy oldPin) && pinCode != ""

/-- The store written by a successful `confirmReservation` transaction:
reservation `confirmed`; unit `assigned` with order reference, buyer
email, PIN (`artwork.pin_code ?? generatePin()`), its last four digits and
cleared attempt/lockout fields; an `assigned` Event and conditionally a
`pin_generated` Event. -/
def confirmedState (pinVal : Nat) (ond ce : Option String) (tok : String)
    (r : Reservation) (aw : Artwork) (s : RegistryState) : RegistryState :=
  { artworks := updateArtworkList s.artworks r.iris_id (fun a =>
      { a with status := ArtworkStatus.assigned
               assigned_order_id := ond
               assigned_customer_email := ce
               pin_code := some (aw.pin_code.getD (generatePin pinVal))
               pin_last4 := some (sliceLast4 (aw.pin_code.getD (generatePin pinVal)))
               pin_attempts := 0
               pin_locked_until := none })
    reservations := updateReservationList s.reservations tok
      (fun x => { x with status := ReservationStatus.confirmed })
    events := s.events ++
      [{ iris_id := r.iris_id, type := "assigned", actor := "shopify" }] ++
      (if pinGeneratedFlag aw.pin_code (aw.pin_code.getD (generatePin pinVal))
       then [{ iris_id := r.iris_id, type := "pin_generated", actor := "system" }]
       else [])
    receipts := s.receipts }

/-- The `confirmReservation` transaction of the webhook handler for one
reservation token.  The callback throws on a missing / non-`active`
reservation and on an expired one; Prisma then rolls the transaction back,
so those branches leave the state untouched (in particular the
`status: "expired"` write preceding the `reservation_expired` throw is
rolled back with it).  A missing artwork row would make `artwork.update`
throw `P2025` (`updateFailed`), also rolling back.  On success: the
reservation becomes `confirmed`; the unit becomes `assigned` with order
reference, buyer email, PIN (kept if already present, else the fresh
`generatePin pinVal`), its last four digits, and cleared attempt/lockout
fields; an `assigned` Event and conditionally a `pin_generated` Event are
appended. -/
def confirmTx (now pinVal : Nat) (orderNumberDisplay customerEmail : Option String)
    (tok : String) (s : RegistryState) :
    Except ConfirmError (RegistryState × String) :=
  match findReservation s tok with
  | none => Except.error ConfirmError.reservationNotActive
  | some r =>
      if r.status ≠ ReservationStatus.active then
        Except.error ConfirmError.reservationNotActive
      else if r.expires_at < now then
        Except.error ConfirmError.reservationExpired
      else
        match findArtwork s r.iris_id with
        | none => Except.error ConfirmError.updateFailed
        | some aw =>
            Except.ok (confirmedState pinVal orderNumberDisplay customerEmail tok r aw s,
              r.iris_id)

/-- The best-effort downstream step after a confirmed claim
(`recordShopifyOwnership`, a no-op placeholder in the source, hence
`fails` is `false` in every actual run): on failure the unit is moved to
`shopify_failed` in a separate transaction and a `SHOPIFY_ERROR` Event is
recorded; the confirmed assignment is never rolled back. -/
def applyDownstream (fails : Bool) (irisId : String) (st : RegistryState) :
    RegistryState :=
  if fails then
    { st with
      artworks := updateArtworkList st.artworks irisId
        (fun a => { a with status := ArtworkStatus.shopify_failed })
      events := st.events ++
        [{ iris_id := irisId, type := "SHOPIFY_ERROR", actor := "shopify" }] }
  else st

/-- Result of the webhook handler. -/
inductive WebhookResult
  | missingRawBody
  | missingHmac
  | missingWebhookId
  | invalidHmac
  | duplicate
  | missingReservationToken
  | confirmFailed
  | processed (failedCount : Nat)
deriving DecidableEq

/-- The per-token loop of the webhook handler: `reservation_expired` and
`reservation_not_active` failures are collected and the loop continues;
any other error aborts with a 500 (`confirmFailed`). -/
def confirmLoop (now : Nat) (pinVal : String → Nat) (fails : String → Bool)
    (orderNumberDisplay customerEmail : Option String) :
    List String → Nat → RegistryState → WebhookResult × RegistryState
  | [], failedCount, st => (WebhookResult.processed failedCount, st)
  | tok :: rest, failedCount, st =>
      match confirmTx now (pinVal tok) orderNumberDisplay customerEmail tok st with
      | Except.error ConfirmError.reservationNotActive =>
          confirmLoop now pinVal fails orderNumberDisplay customerEmail rest
            (failedCount + 1) st
      | Except.error ConfirmError.reservationExpired =>
          confirmLoop now pinVal fails orderNumberDisplay customerEmail rest
            (failedCount + 1) st
      | Except.error ConfirmError.updateFailed => (WebhookResult.confirmFailed, st)
      | Except.ok (st1, irisId) =>
          confirmLoop now pinVal fails orderNumberDisplay customerEmail rest
            failedCount (applyDownstream (fails tok) irisId st1)

/-- The request-dependent inputs of the webhook handler.  `hmacValid`
abstracts `verifyShopifyHmac(rawBody, secret, hmacHeader)`; `tokens` is
`parseReservationTokens(order)` (a pure function of the payload);
`orderNumberDisplay` and `customerEmail` are the order fields extracted
from the payload. -/
structure WebhookInput where
  rawBodyPresent : Bool
  hmacHeader : Option String
  webhookId : Option String
  hmacValid : Bool
  tokens : List String
  orderNumberDisplay : Option String
  customerEmail : Option String

/-- `POST /webhooks/shopify/orders-paid`: raw-body and header checks, HMAC
check, then the deduplication insert into `WebhookReceipt` (unique on the
delivery id — an existing id answers `duplicate` with no further effect),
then token extraction and the per-token confirmation loop. -/
def applyWebhook (now : Nat) (inp : WebhookInput) (pinVal : String → Nat)
    (fails : String → Bool) (s : RegistryState) : WebhookResult × RegistryState :=
  if inp.rawBodyPresent = false then (WebhookResult.missingRawBody, s)
  else if inp.hmacHeader.getD "" = "" then (WebhookResult.missingHmac, s)
  else if inp.webhookId.getD "" = "" then (WebhookResult.missingWebhookId, s)
  else if inp.hmacValid = false then (WebhookResult.invalidHmac, s)
  else if (inp.webhookId.getD "") ∈ s.receipts then
    (WebhookResult.duplicate, s)
  else if inp.tokens = [] then
    (WebhookResult.missingReservationToken,
      { s with receipts := s.receipts ++ [inp.webhookId.getD ""] })
  else
    confirmLoop now pinVal fails inp.orderNumberDisplay inp.customerEmail
      inp.tokens 0 { s with receipts := s.receipts ++ [inp.webhookId.getD ""] }

/-! ## Activation gate — `handleActivateVerify`
(`POST /activate-verify`, `POST /apps/iris/activate-verify`) -/

/-- `MAX_ATTEMPTS` of `handleActivateVerify`. -/
def MAX_ATTEMPTS : Nat := 5

/-- `LOCK_MINUTES` of `handleActivateVerify`. -/
def LOCK_MINUTES : Nat := 60

/-- Input normalisation of `handleActivateVerify`:
`body?.iris_id?.toUpperCase().trim()`. -/
def normIris (x : Option String) : String := jsTrim (jsToUpper (x.getD ""))

/-- `body?.pin?.trim()`. -/
def normPin (x : Option String) : String := jsTrim (x.getD "")

/-- `body?.email?.trim().toLowerCase()`. -/
def normEmail (x : Option String) : String := jsToLower (jsTrim (x.getD ""))

/-- Result of `handleActivateVerify`. -/
inductive VerifyResult
  | missingRequiredFields
  | irisNotFound
  | alreadyActivated
  | notAssigned
  | pinNotSet
  | tooManyAttempts (retryAt : Nat)
  | invalidPin
  | ok
deriving DecidableEq

/-- The PIN-comparison stage of `handleActivateVerify`, reached when the
unit is `assigned`, has a PIN and no lockout is in force.  On mismatch the
attempt counter is incremented, the lockout expiry is set to
`now + 60 minutes` exactly when the new counter reaches `MAX_ATTEMPTS`
(and reset to null otherwise), and an `activation_failed` Event is
appended in the same transaction; the handler answers `invalid_pin` either
way.  On match the unit becomes `activated` with activation time, owner
email and (fresh if absent) proof token, cleared attempt/lockout fields,
and an `activated` Event; the follow-up Shopify invite is external and
best-effort. -/
def verifyPinStage (now : Nat) (freshProofToken : String)
    (irisId pin email pinCode : String) (aw : Artwork) (s : RegistryState) :
    VerifyResult × RegistryState :=
  if pinCode ≠ pin then
    (VerifyResult.invalidPin,
      { s with
        artworks := updateArtworkList s.artworks irisId (fun a =>
          { a with pin_attempts := aw.pin_attempts + 1
                   pin_locked_until :=
                     if aw.pin_attempts + 1 ≥ MAX_ATTEMPTS then
                       some (now + LOCK_MINUTES * 60 * 1000)
                     else none })
        events := s.events ++
          [{ iris_id := irisId, type := "activation_failed", actor := email }] })
  else
    (VerifyResult.ok,
      { s with
        artworks := updateArtworkList s.artworks irisId (fun a =>
          { a with status := ArtworkStatus.activated
                   activated_at := some now
                   owner_email := some email
                   proof_token := some (aw.proof_token.getD freshProofToken)
                   pin_attempts := 0
                   pin_locked_until := none })
        events := s.events ++
          [{ iris_id := irisId, type := "activated", actor := email }] })

/-- `handleActivateVerify`: input normalisation and presence checks, unit
lookup, status gates (`already_activated`, `not_assigned`), PIN-set gate,
lockout gate (`pin_locked_until > now` answers `too_many_attempts` with
the unlock time), then the PIN-comparison stage. -/
def handleActivateVerify (now : Nat) (freshProofToken : String)
    (irisIdRaw pinRaw emailRaw : Option String) (s : RegistryState) :
    VerifyResult × RegistryState :=
  if normIris irisIdRaw = "" ∨ normPin pinRaw = "" ∨ normEmail emailRaw = "" then
    (VerifyResult.missingRequiredFields, s)
  else
    match findArtwork s (normIris irisIdRaw) with
    | none => (VerifyResult.irisNotFound, s)
    | some aw =>
        if aw.status = ArtworkStatus.activated then
          (VerifyResult.alreadyActivated, s)
        else if aw.status ≠ ArtworkStatus.assigned then
          (VerifyResult.notAssigned, s)
        else if jsTruthy aw.pin_code = false then (VerifyResult.pinNotSet, s)
        else
          match aw.pin_locked_until with
          | some t =>
              if now < t then (VerifyResult.tooManyAttempts t, s)
              else
                verifyPinStage now freshProofToken (normIris irisIdRaw)
                  (normPin pinRaw) (normEmail emailRaw) (aw.pin_code.getD "") aw s
          | none =>
              verifyPinStage now freshProofToken (normIris irisIdRaw)
                (normPin pinRaw) (normEmail emailRaw) (aw.pin_code.getD "") aw s

/-! ## The unconditional `POST /activate` endpoint -/

/-- Result of `POST /activate`. -/
inductive PlainActivateResult
  | missingRequiredFields
  | irisNotFound
  | ok
deriving DecidableEq

/-- `POST /activate`: requires `iris_id` and `pin` to be present in the
body but never compares the PIN against the stored one and never checks
the current status; it sets the unit to `activated` with an activation
timestamp (overwriting `assigned_customer_email` when a truthy
`actor_email` is supplied) and appends an `activated` Event.  A missing
row makes `artwork.update` throw `P2025`, answered with 404. -/
def postActivate (now : Nat) (irisIdRaw pinRaw actorEmail : Option String)
    (s : RegistryState) : PlainActivateResult × RegistryState :=
  if irisIdRaw.getD "" = "" ∨ pinRaw.getD "" = "" then
    (PlainActivateResult.missingRequiredFields, s)
  else
    match findArtwork s (irisIdRaw.getD "") with
    | none => (PlainActivateResult.irisNotFound, s)
    | some _ =>
        (PlainActivateResult.ok,
          { s with
            artworks := updateArtworkList s.artworks (irisIdRaw.getD "") (fun a =>
              { a with status := ArtworkStatus.activated
                       activated_at := some now
                       assigned_customer_email :=
                         if actorEmail.getD "" = "" then a.assigned_customer_email
                         else some (actorEmail.getD "") })
            events := s.events ++
              [{ iris_id := irisIdRaw.getD "", type := "activated",
                 actor := match actorEmail with
                          | some e => e
                          | none => "system" }] })

/-! ## Proof retrieval — `GET /apps/iris/proof/:irisId` -/

/-- Result of proof retrieval. -/
inductive ProofResult
  | invalidIrisId
  | notFound
  | payload (irisId rarity root : String) (proof : List String) (nonce : String)
      (valid : Bool)
deriving DecidableEq

/-- `GET /apps/iris/proof/:irisId`: after sanitising the identifier, the
payload is returned only when the row exists, is `activated`, has a truthy
rarity code and a stored proof, and the query carries a truthy token equal
to the row's `proof_token`; every other combination is answered with the
same `not_found`.  The `valid` flag is recomputed from the stored nonce,
sibling path and root via `computeLeaf` and `verifyMerkleProof`. -/
def getProof (sha256 : String → String) (irisIdRaw : String)
    (token? : Option String) (s : RegistryState) : ProofResult :=
  if sanitizeIrisId irisIdRaw = "" then ProofResult.invalidIrisId
  else
    match findArtwork s (sanitizeIrisId irisIdRaw) with
    | none => ProofResult.notFound
    | some item =>
        match item.rarity_proof with
        | none => ProofResult.notFound
        | some rp =>
            if item.status ≠ ArtworkStatus.activated then ProofResult.notFound
            else if jsTruthy item.rarity_code = false then ProofResult.notFound
            else if token?.getD "" = "" then ProofResult.notFound
            else if item.proof_token ≠ some (token?.getD "") then
              ProofResult.notFound
            else
              ProofResult.payload item.iris_id (item.rarity_code.getD "") rp.root
                rp.proof rp.nonce
                (verifyMerkleProof sha256
                  (computeLeaf sha256 item.iris_id (item.rarity_code.getD "") rp.nonce)
                  rp.proof rp.root)

/-! ## Helper lemmas about the embedding -/

theorem generatePin_length (v : Nat) (hv : v < 1000000) :
    (generatePin v).data.length = 6 := by
  have hlen : (jsNatString v).data.length ≤ 6 := by
    rw [jsNatString]
    split
    · decide
    · next h0 =>
        simp only [String.data]
        rw [List.length_map, List.length_reverse,
          Nat.digits_len 10 v (by norm_num) h0]
        have : Nat.log 10 v < 6 := Nat.log_lt_of_lt_pow h0 (by norm_num; omega)
        omega
  rw [generatePin, padStart]
  simp only [String.length] at hlen ⊢
  simp only [List.length_append, List.length_replicate]
  omega

theorem generatePin_ne_empty (v : Nat) : generatePin v ≠ "" := by
  intro h
  have : (generatePin v).data = [] := by rw [h]
  rw [generatePin, padStart] at this
  simp only [List.append_eq_nil] at this
  have h2 : (jsNatString v).data ≠ [] := by
    rw [jsNatString]
    split
    · decide
    · next h0 =>
        simp only [String.data, ne_eq, List.map_eq_nil_iff, List.reverse_eq_nil_iff]
        exact Nat.digits_ne_nil_iff_ne_zero.mpr h0
  exact h2 this.2

theorem digitChar_isDigit (d : Nat) (hd : d < 10) : (digitChar d).isDigit = true := by
  rw [digitChar]
  interval_cases d <;> decide

theorem generatePin_all_digits (v : Nat) :
    ∀ c ∈ (generatePin v).data, c.isDigit = true := by
  intro c hc
  rw [generatePin, padStart] at hc
  simp only [List.mem_append, List.mem_replicate] at hc
  rcases hc with ⟨_, hc⟩ | hc
  · subst hc; decide
  · rw [jsNatString] at hc
    split at hc
    · simp at hc; subst hc; decide
    · simp only [String.data, List.mem_map, List.mem_reverse] at hc
      obtain ⟨d, hd, hcd⟩ := hc
      subst hcd
      exact digitChar_isDigit d (Nat.digits_lt_base (by norm_num) hd)

theorem find?_updateArtworkList (l : List Artwork) (id : String)
    (f : Artwork → Artwork) (hf : ∀ a, (f a).iris_id = a.iris_id) :
    (updateArtworkList l id f).find? (fun a => a.iris_id == id) =
      (l.find? (fun a => a.iris_id == id)).map f := by
  induction l with
  | nil => rfl
  | cons a rest ih =>
      by_cases ha : a.iris_id = id
      · rw [updateArtworkList, List.map_cons, if_pos (by simpa using ha)]
        rw [List.find?_cons_of_pos _ (by simp [hf, ha]),
          List.find?_cons_of_pos _ (by simp [ha]), Option.map_some']
      · rw [updateArtworkList, List.map_cons, if_neg (by simpa using ha)]
        rw [List.find?_cons_of_neg _ (by simp [ha]),
          List.find?_cons_of_neg _ (by simp [ha])]
        exact ih

theorem find?_map_of_ne (l : List Artwork) (id id2 : String)
    (f : Artwork → Artwork) (hf : ∀ a, (f a).iris_id = a.iris_id)
    (hne : id2 ≠ id) :
    (updateArtworkList l id2 f).find? (fun a => a.iris_id == id) =
      ((l.find? (fun a => a.iris_id == id)).map
        (fun a => if a.iris_id == id2 then f a else a)) := by
  induction l with
  | nil => rfl
  | cons a rest ih =>
      by_cases ha : a.iris_id = id
      · rw [updateArtworkList, List.map_cons]
        by_cases h2 : a.iris_id = id2
        · exact absurd (h2 ▸ ha) hne
        · rw [if_neg (by simpa using h2)]
          rw [List.find?_cons_of_pos _ (by simp [ha]),
            List.find?_cons_of_pos _ (by simp [ha]), Option.map_some']
          rw [if_neg (by simpa using h2)]
      · rw [updateArtworkList, List.map_cons]
        by_cases h2 : a.iris_id = id2
        · rw [if_pos (by simpa using h2)]
          rw [List.find?_cons_of_neg _ (by simp [hf, ha]),
            List.find?_cons_of_neg _ (by simp [ha])]
          exact ih
        · rw [if_neg (by simpa using h2)]
          rw [List.find?_cons_of_neg _ (by simp [ha]),
            List.find?_cons_of_neg _ (by simp [ha])]
          exact ih

theorem map_pair_updateArtworkList (l : List Artwork) (id : String)
    (f : Artwork → Artwork) (hid : ∀ a, (f a).iris_id = a.iris_id)
    (hst : ∀ a, (f a).status = a.status) :
    (updateArtworkList l id f).map (fun a => (a.iris_id, a.status)) =
      l.map (fun a => (a.iris_id, a.status)) := by
  rw [updateArtworkList, List.map_map]
  apply List.map_congr_left
  intro a _
  by_cases h : a.iris_id = id
  · have hc : (a.iris_id == id) = true := by simpa using h
    simp only [Function.comp_apply, if_pos hc, hid, hst]
  · have hc : ¬((a.iris_id == id) = true) := by simpa using h
    simp only [Function.comp_apply, if_neg hc]

theorem verify_ok_iff (now : Nat) (ft : String) (i p e : Option String)
    (s : RegistryState) :
    (handleActivateVerify now ft i p e s).1 = VerifyResult.ok ↔
      (normIris i ≠ "" ∧ normPin p ≠ "" ∧ normEmail e ≠ "" ∧
        ∃ aw, findArtwork s (normIris i) = some aw ∧
          aw.status = ArtworkStatus.assigned ∧ jsTruthy aw.pin_code = true ∧
          aw.pin_code.getD "" = normPin p ∧
          (∀ t, aw.pin_locked_until = some t → t ≤ now)) := by
  rw [handleActivateVerify]
  by_cases h1 : normIris i = "" ∨ normPin p = "" ∨ normEmail e = ""
  · rw [if_pos h1]
    constructor
    · intro h; simp at h
    · rintro ⟨hi, hp, he, -⟩
      rcases h1 with h | h | h
      · exact absurd h hi
      · exact absurd h hp
      · exact absurd h he
  · rw [if_neg h1]
    push_neg at h1
    obtain ⟨hi, hp, he⟩ := h1
    cases hfind : findArtwork s (normIris i) with
    | none =>
        simp only []
        constructor
        · intro h; simp at h
        · rintro ⟨-, -, -, aw, haw, -⟩
          exact absurd haw (by simp)
    | some aw =>
        simp only []
        by_cases hact : aw.status = ArtworkStatus.activated
        · rw [if_pos hact]
          constructor
          · intro h; simp at h
          · rintro ⟨-, -, -, aw2, haw2, hst2, -⟩
            have heq : aw = aw2 := by injection haw2
            rw [← heq, hact] at hst2
            simp at hst2
        · rw [if_neg hact]
          by_cases hass : aw.status ≠ ArtworkStatus.assigned
          · rw [if_pos hass]
            constructor
            · intro h; simp at h
            · rintro ⟨-, -, -, aw2, haw2, hst2, -⟩
              have heq : aw = aw2 := by injection haw2
              rw [← heq] at hst2
              exact absurd hst2 hass
          · rw [if_neg hass]
            push_neg at hass
            by_cases hpin : jsTruthy aw.pin_code = false
            · rw [if_pos hpin]
              constructor
              · intro h; simp at h
              · rintro ⟨-, -, -, aw2, haw2, -, htr2, -⟩
                have heq : aw = aw2 := by injection haw2
                rw [← heq, hpin] at htr2
                simp at htr2
            · rw [if_neg hpin]
              rw [Bool.not_eq_false] at hpin
              cases hlock : aw.pin_locked_until with
              | some t =>
                  simp only []
                  by_cases hlt : now < t
                  · rw [if_pos hlt]
                    constructor
                    · intro h; simp at h
                    · rintro ⟨-, -, -, aw2, haw2, -, -, -, hlk2⟩
                      have heq : aw = aw2 := by injection haw2
                      have := hlk2 t (by rw [← heq]; exact hlock)
                      omega
                  · rw [if_neg hlt]
                    rw [verifyPinStage]
                    by_cases hne : aw.pin_code.getD "" ≠ normPin p
                    · rw [if_pos hne]
                      constructor
                      · intro h; simp at h
                      · rintro ⟨-, -, -, aw2, haw2, -, -, hpc2, -⟩
                        have heq : aw = aw2 := by injection haw2
                        rw [← heq] at hpc2
                        exact absurd hpc2 hne
                    · rw [if_neg hne]
                      push_neg at hne
                      constructor
                      · intro _
                        exact ⟨hi, hp, he, aw, rfl, hass, hpin, hne,
                          fun t2 ht2 => by
                            rw [hlock] at ht2
                            have : t = t2 := by injection ht2
                            omega⟩
                      · intro _; rfl
              | none =>
                  simp only []
                  rw [verifyPinStage]
                  by_cases hne : aw.pin_code.getD "" ≠ normPin p
                  · rw [if_pos hne]
                    constructor
                    · intro h; simp at h
                    · rintro ⟨-, -, -, aw2, haw2, -, -, hpc2, -⟩
                      have heq : aw = aw2 := by injection haw2
                      rw [← heq] at hpc2
                      exact absurd hpc2 hne
                  · rw [if_neg hne]
                    push_neg at hne
                    constructor
                    · intro _
                      exact ⟨hi, hp, he, aw, rfl, hass, hpin, hne,
                        fun t2 ht2 => by rw [hlock] at ht2; cases ht2⟩
                    · intro _; rfl

theorem verify_ok_state (now : Nat) (ft : String) (i p e : Option String)
    (s : RegistryState) :
    (handleActivateVerify now ft i p e s).1 = VerifyResult.ok →
      ∃ aw, findArtwork s (normIris i) = some aw ∧
        (handleActivateVerify now ft i p e s).2 =
          { s with
            artworks := updateArtworkList s.artworks (normIris i) (fun a =>
              { a with status := ArtworkStatus.activated
                       activated_at := some now
                       owner_email := some (normEmail e)
                       proof_token := some (aw.proof_token.getD ft)
                       pin_attempts := 0
                       pin_locked_until := none })
            events := s.events ++
              [{ iris_id := normIris i, type := "activated",
                 actor := normEmail e }] } := by
  rw [handleActivateVerify]
  by_cases h1 : normIris i = "" ∨ normPin p = "" ∨ normEmail e = ""
  · rw [if_pos h1]; intro h; simp at h
  · rw [if_neg h1]
    cases hfind : findArtwork s (normIris i) with
    | none => simp only []; intro h; simp at h
    | some aw =>
        simp only []
        by_cases hact : aw.status = ArtworkStatus.activated
        · rw [if_pos hact]; intro h; simp at h
        · rw [if_neg hact]
          by_cases hass : aw.status ≠ ArtworkStatus.assigned
          · rw [if_pos hass]; intro h; simp at h
          · rw [if_neg hass]
            by_cases hpin : jsTruthy aw.pin_code = false
            · rw [if_pos hpin]; intro h; simp at h
            · rw [if_neg hpin]
              cases hlock : aw.pin_locked_until with
              | some t =>
                  simp only []
                  by_cases hlt : now < t
                  · rw [if_pos hlt]; intro h; simp at h
                  · rw [if_neg hlt]
                    rw [verifyPinStage]
                    by_cases hne : aw.pin_code.getD "" ≠ normPin p
                    · rw [if_pos hne]; intro h; simp at h
                    · rw [if_neg hne]
                      intro _
                      exact ⟨aw, rfl, rfl⟩
              | none =>
                  simp only []
                  rw [verifyPinStage]
                  by_cases hne : aw.pin_code.getD "" ≠ normPin p
                  · rw [if_pos hne]; intro h; simp at h
                  · rw [if_neg hne]
                    intro _
                    exact ⟨aw, rfl, rfl⟩

theorem verify_not_ok_statuses (now : Nat) (ft : String) (i p e : Option String)
    (s : RegistryState) :
    (handleActivateVerify now ft i p e s).1 ≠ VerifyResult.ok →
      (handleActivateVerify now ft i p e s).2.artworks.map
          (fun a => (a.iris_id, a.status)) =
        s.artworks.map (fun a => (a.iris_id, a.status)) := by
  rw [handleActivateVerify]
  by_cases h1 : normIris i = "" ∨ normPin p = "" ∨ normEmail e = ""
  · rw [if_pos h1]; intro _; rfl
  · rw [if_neg h1]
    cases hfind : findArtwork s (normIris i) with
    | none => intro _; rfl
    | some aw =>
        simp only []
        by_cases hact : aw.status = ArtworkStatus.activated
        · rw [if_pos hact]; intro _; rfl
        · rw [if_neg hact]
          by_cases hass : aw.status ≠ ArtworkStatus.assigned
          · rw [if_pos hass]; intro _; rfl
          · rw [if_neg hass]
            by_cases hpin : jsTruthy aw.pin_code = false
            · rw [if_pos hpin]; intro _; rfl
            · rw [if_neg hpin]
              cases hlock : aw.pin_locked_until with
              | some t =>
                  simp only []
                  by_cases hlt : now < t
                  · rw [if_pos hlt]; intro _; rfl
                  · rw [if_neg hlt]
                    rw [verifyPinStage]
                    by_cases hne : aw.pin_code.getD "" ≠ normPin p
                    · rw [if_pos hne]
                      intro _
                      exact map_pair_updateArtworkList s.artworks (normIris i) _
                        (fun a => rfl) (fun a => rfl)
                    · rw [if_neg hne]
                      intro h
                      exact absurd rfl h
              | none =>
                  simp only []
                  rw [verifyPinStage]
                  by_cases hne : aw.pin_code.getD "" ≠ normPin p
                  · rw [if_pos hne]
                    intro _
                    exact map_pair_updateArtworkList s.artworks (normIris i) _
                      (fun a => rfl) (fun a => rfl)
                  · rw [if_neg hne]
                    intro h
                    exact absurd rfl h

/-- A reserved unit with a stored PIN, used to exhibit the unconditional
`POST /activate` endpoint. -/
def c2Artwork : Artwork :=
  { iris_id := "IRIS-0001", status := ArtworkStatus.reserved,
    pin_code := some "111111" }

/-- A one-unit store containing `c2Artwork`. -/
def c2State : RegistryState :=
  { artworks := [c2Artwork], reservations := [], events := [], receipts := [] }

/-- C2 counterexample: the `POST /activate` execution step (one of the two
endpoints the claim covers) activates a unit whose status is `reserved`
— not `assigned` — while the supplied PIN `999999` differs from the
stored PIN `111111`; no attempt counter is consulted.  This refutes
"no reachable execution step activates a unit from any other status or
without a matching PIN". -/
theorem postActivate_bypasses_gate_counterexample :
    c2Artwork.status = ArtworkStatus.reserved ∧
    c2Artwork.pin_code = some "111111" ∧
    ("999999" : String) ≠ "111111" ∧
    (postActivate 5000 (some "IRIS-0001") (some "999999") none c2State).1 =
      PlainActivateResult.ok ∧
    (postActivate 5000 (some "IRIS-0001") (some "999999") none
        c2State).2.artworks.map (fun a => a.status) = [ArtworkStatus.activated] := by
  decide

/-- C2 (amended): the PIN-verify endpoints (`handleActivateVerify`)
transition a unit to `activated` only from `assigned`, only on the correct
PIN with no lockout in force; the transition clears the attempt counter
and lockout, sets the activation timestamp, owner email and proof token,
and appends an `activated` Event, and no other unit changes status; the
plain `POST /activate` endpoint, however, activates without these checks
(see the counterexample). -/
theorem activation_gate_spec (now : Nat) (ft : String) (i p e : Option String)
    (s : RegistryState) :
    ((handleActivateVerify now ft i p e s).1 = VerifyResult.ok ↔
      (normIris i ≠ "" ∧ normPin p ≠ "" ∧ normEmail e ≠ "" ∧
        ∃ aw, findArtwork s (normIris i) = some aw ∧
          aw.status = ArtworkStatus.assigned ∧ jsTruthy aw.pin_code = true ∧
          aw.pin_code.getD "" = normPin p ∧
          (∀ t, aw.pin_locked_until = some t → t ≤ now))) ∧
    ((handleActivateVerify now ft i p e s).1 = VerifyResult.ok →
      ∃ aw, findArtwork s (normIris i) = some aw ∧
        (handleActivateVerify now ft i p e s).2 =
          { s with
            artworks := updateArtworkList s.artworks (normIris i) (fun a =>
              { a with status := ArtworkStatus.activated
                       activated_at := some now
                       owner_email := some (normEmail e)
                       proof_token := some (aw.proof_token.getD ft)
                       pin_attempts := 0
                       pin_locked_until := none })
            events := s.events ++
              [{ iris_id := normIris i, type := "activated",
                 actor := normEmail e }] }) ∧
    ((handleActivateVerify now ft i p e s).1 ≠ VerifyResult.ok →
      (handleActivateVerify now ft i p e s).2.artworks.map
          (fun a => (a.iris_id, a.status)) =
        s.artworks.map (fun a => (a.iris_id, a.status))) :=
  ⟨verify_ok_iff now ft i p e s, verify_ok_state now ft i p e s,
    verify_not_ok_statuses now ft i p e s⟩

/-- An assigned unit satisfying every activation precondition. -/
def witArtwork : Artwork :=
  { iris_id := "IRIS-0001", status := ArtworkStatus.assigned,
    pin_code := some "123456" }

/-- A one-unit store containing `witArtwork`. -/
def witState : RegistryState :=
  { artworks := [witArtwork], reservations := [], events := [], receipts := [] }

/-- Witness for C2 at a concrete store: the verify gate succeeds exactly
under the characterised conditions. -/
theorem activation_gate_spec_witness :
    (handleActivateVerify 500 "T" (some "IRIS-0001") (some "123456")
      (some "A@B.c") witState).1 = VerifyResult.ok :=
  ((activation_gate_spec 500 "T" (some "IRIS-0001") (some "123456")
      (some "A@B.c") witState).1).mpr
    ⟨by decide, by decide, by decide, witArtwork, by decide, by decide, by decide,
      by decide, fun t ht => by simp [witArtwork] at ht⟩

/-- A `shopify_failed` unit with a stored PIN and no lockout. -/
def c9Artwork : Artwork :=
  { iris_id := "IRIS-0002", status := ArtworkStatus.shopify_failed,
    pin_code := some "111111" }

/-- A one-unit store containing `c9Artwork`. -/
def c9State : RegistryState :=
  { artworks := [c9Artwork], reservations := [], events := [], receipts := [] }

/-- C9 counterexample: a `shopify_failed` unit with a PIN set, no lockout
and the correct PIN supplied is rejected by the verify operation with the
`not_assigned` conflict (it does not proceed), refuting the claim that
the fault state still permits manual activation attempts against the
stored PIN through `verify`. -/
theorem verify_shopify_failed_counterexample :
    c9Artwork.status = ArtworkStatus.shopify_failed ∧
    c9Artwork.pin_code = some "111111" ∧
    c9Artwork.pin_locked_until = none ∧
    handleActivateVerify 1000 "T" (some "IRIS-0002") (some "111111")
      (some "x@y.z") c9State = (VerifyResult.notAssigned, c9State) := by
  decide

theorem verify_rejects_non_assigned (now : Nat) (ft : String)
    (i p e : Option String) (s : RegistryState) (aw : Artwork)
    (hfind : findArtwork s (normIris i) = some aw)
    (hst : aw.status = ArtworkStatus.shopify_failed)
    (hi : normIris i ≠ "") (hp : normPin p ≠ "") (he : normEmail e ≠ "") :
    handleActivateVerify now ft i p e s = (VerifyResult.notAssigned, s) := by
  rw [handleActivateVerify,
    if_neg (by rintro (h | h | h); exacts [hi h, hp h, he h]), hfind]
  simp only []
  rw [if_neg (by rw [hst]; simp), if_pos (by rw [hst]; simp)]

theorem postActivate_accepts_any_status (now : Nat) (id pin : String)
    (actor : Option String) (s : RegistryState) (aw : Artwork)
    (hfind : findArtwork s id = some aw)
    (hi : id ≠ "") (hp : pin ≠ "") :
    (postActivate now (some id) (some pin) actor s).1 = PlainActivateResult.ok := by
  have hcond : ¬((some id : Option String).getD "" = "" ∨
      (some pin : Option String).getD "" = "") := by
    rintro (h | h)
    · exact hi (by simpa using h)
    · exact hp (by simpa using h)
  rw [postActivate.eq_def, if_neg hcond]
  simp only [Option.getD_some]
  rw [hfind]

/-- C9 (amended): a `shopify_failed` unit is rejected by the PIN-verify
operation with the `not_assigned` conflict — even with a PIN set, no
lockout and the correct PIN supplied — and nothing is mutated; manual
activation of such a unit is possible only through the plain
`POST /activate` endpoint, which succeeds for any status but never
compares the stored PIN. -/
theorem shopify_failed_activation_spec :
    (∀ (now : Nat) (ft : String) (i p e : Option String) (s : RegistryState)
        (aw : Artwork), findArtwork s (normIris i) = some aw →
      aw.status = ArtworkStatus.shopify_failed →
      normIris i ≠ "" → normPin p ≠ "" → normEmail e ≠ "" →
      handleActivateVerify now ft i p e s = (VerifyResult.notAssigned, s)) ∧
    (∀ (now : Nat) (id pin : String) (actor : Option String)
        (s : RegistryState) (aw : Artwork), findArtwork s id = some aw →
      id ≠ "" → pin ≠ "" →
      (postActivate now (some id) (some pin) actor s).1 =
        PlainActivateResult.ok) :=
  ⟨fun now ft i p e s aw hfind hst hi hp he =>
      verify_rejects_non_assigned now ft i p e s aw hfind hst hi hp he,
    fun now id pin actor s aw hfind hi hp =>
      postActivate_accepts_any_status now id pin actor s aw hfind hi hp⟩

/-- Witness for C9 at the concrete `shopify_failed` store. -/
theorem shopify_failed_activation_spec_witness :
    handleActivateVerify 77 "T" (some "IRIS-0002") (some "111111")
        (some "x@y.z") c9State = (VerifyResult.notAssigned, c9State) ∧
      (postActivate 77 (some "IRIS-0002") (some "111111") none c9State).1 =
        PlainActivateResult.ok :=
  ⟨shopify_failed_activation_spec.1 77 "T" (some "IRIS-0002") (some "111111")
      (some "x@y.z") c9State c9Artwork (by decide) (by decide) (by decide)
      (by decide) (by decide),
    shopify_failed_activation_spec.2 77 "IRIS-0002" "111111" none c9State
      c9Artwork (by decide) (by decide) (by decide)⟩

theorem confirmTx_receipts (now pinVal : Nat) (ond ce : Option String)
    (tok : String) (s : RegistryState) (st1 : RegistryState) (irisId : String)
    (h : confirmTx now pinVal ond ce tok s = Except.ok (st1, irisId)) :
    st1.receipts = s.receipts := by
  rw [confirmTx] at h
  cases hfr : findReservation s tok with
  | none => rw [hfr] at h; simp at h
  | some r =>
      rw [hfr] at h
      simp only [] at h
      by_cases h1 : r.status ≠ ReservationStatus.active
      · rw [if_pos h1] at h; simp at h
      · rw [if_neg h1] at h
        by_cases h2 : r.expires_at < now
        · rw [if_pos h2] at h; simp at h
        · rw [if_neg h2] at h
          cases hfa : findArtwork s r.iris_id with
          | none => rw [hfa] at h; simp at h
          | some aw =>
              rw [hfa] at h
              simp only [Except.ok.injEq, Prod.mk.injEq] at h
              rw [← h.1]
              rfl

theorem applyDownstream_receipts (fails : Bool) (irisId : String)
    (st : RegistryState) : (applyDownstream fails irisId st).receipts = st.receipts := by
  rw [applyDownstream]
  split <;> rfl

theorem confirmLoop_receipts (now : Nat) (pinVal : String → Nat)
    (fails : String → Bool) (ond ce : Option String) :
    ∀ (toks : List String) (fc : Nat) (st : RegistryState),
      ((confirmLoop now pinVal fails ond ce toks fc st).2).receipts = st.receipts
  | [], _, _ => rfl
  | tok :: rest, fc, st => by
      rw [confirmLoop]
      cases hc : confirmTx now (pinVal tok) ond ce tok st with
      | error err =>
          cases err with
          | reservationNotActive =>
              exact confirmLoop_receipts now pinVal fails ond ce rest (fc + 1) st
          | reservationExpired =>
              exact confirmLoop_receipts now pinVal fails ond ce rest (fc + 1) st
          | updateFailed => rfl
      | ok pr =>
          rw [confirmLoop_receipts now pinVal fails ond ce rest fc _]
          rw [applyDownstream_receipts]
          exact confirmTx_receipts now (pinVal tok) ond ce tok st pr.1 pr.2 (by
            rw [hc])

/-- C3: an external-event application whose delivery identifier was already
recorded answers `duplicate` and performs no further processing (the
entire store, hence every Unit, Reservation and Event, is unchanged); and
any application that changes the store at all has first recorded its
delivery identifier — the receipt insert precedes every other side
effect. -/
theorem webhook_dedup_spec (now : Nat) (inp : WebhookInput)
    (pinVal : String → Nat) (fails : String → Bool) (s : RegistryState)
    (wid : String) (hid : inp.webhookId = some wid) (hwid : wid ≠ "") :
    (inp.rawBodyPresent = true → inp.hmacHeader.getD "" ≠ "" →
      inp.hmacValid = true → wid ∈ s.receipts →
      applyWebhook now inp pinVal fails s = (WebhookResult.duplicate, s)) ∧
    ((applyWebhook now inp pinVal fails s).2 ≠ s →
      wid ∈ (applyWebhook now inp pinVal fails s).2.receipts) := by
  constructor
  · intro hraw hhmac hvalid hmem
    rw [applyWebhook, if_neg (by rw [hraw]; simp), if_neg hhmac,
      if_neg (by rw [hid]; simpa using hwid), if_neg (by rw [hvalid]; simp),
      if_pos (by rw [hid]; simpa using hmem)]
  · intro hchanged
    rw [applyWebhook] at hchanged ⊢
    by_cases hraw : inp.rawBodyPresent = false
    · rw [if_pos hraw] at hchanged; exact absurd rfl hchanged
    · rw [if_neg hraw] at hchanged ⊢
      by_cases hhmac : inp.hmacHeader.getD "" = ""
      · rw [if_pos hhmac] at hchanged; exact absurd rfl hchanged
      · rw [if_neg hhmac] at hchanged ⊢
        by_cases hw : inp.webhookId.getD "" = ""
        · rw [if_pos hw] at hchanged; exact absurd rfl hchanged
        · rw [if_neg hw] at hchanged ⊢
          by_cases hv : inp.hmacValid = false
          · rw [if_pos hv] at hchanged; exact absurd rfl hchanged
          · rw [if_neg hv] at hchanged ⊢
            by_cases hmem : inp.webhookId.getD "" ∈ s.receipts
            · rw [if_pos hmem] at hchanged; exact absurd rfl hchanged
            · rw [if_neg hmem] at hchanged ⊢
              have hwid2 : inp.webhookId.getD "" = wid := by rw [hid]; rfl
              by_cases htk : inp.tokens = []
              · rw [if_pos htk]
                simp only []
                rw [hwid2]
                exact List.mem_append_right _ (by simp)
              · rw [if_neg htk]
                rw [confirmLoop_receipts]
                simp only []
                rw [hwid2]
                exact List.mem_append_right _ (by simp)

/-- The request of a replayed delivery `W1` with valid signature. -/
def c3Input : WebhookInput :=
  { rawBodyPresent := true, hmacHeader := some "h", webhookId := some "W1",
    hmacValid := true, tokens := ["T1"], orderNumberDisplay := some "#1001",
    customerEmail := some "b@x.co" }

/-- A store that has already recorded delivery `W1`. -/
def c3State : RegistryState :=
  { artworks := [], reservations := [], events := [], receipts := ["W1"] }

/-- Witness for C3: the replayed delivery is answered `duplicate` with the
store untouched. -/
theorem webhook_dedup_spec_witness :
    applyWebhook 1000 c3Input (fun _ => 0) (fun _ => false) c3State =
      (WebhookResult.duplicate, c3State) :=
  (webhook_dedup_spec 1000 c3Input (fun _ => 0) (fun _ => false) c3State "W1"
      (by decide) (by decide)).1 (by decide) (by decide) (by decide) (by decide)

/-- Unit referenced by the expired reservation in the C4 scenario. -/
def c4ArtA : Artwork := { iris_id := "IRIS-0001", status := ArtworkStatus.reserved }

/-- Unit referenced by the live reservation in the C4 scenario (PIN already
present, as after an earlier confirmation). -/
def c4ArtB : Artwork :=
  { iris_id := "IRIS-0002", status := ArtworkStatus.reserved,
    pin_code := some "654321" }

/-- An `active` reservation whose expiry (1000) has passed at call time
(2000). -/
def c4ResA : Reservation :=
  { token := "T1", iris_id := "IRIS-0001", status := ReservationStatus.active,
    expires_at := 1000 }

/-- An `active`, unexpired reservation. -/
def c4ResB : Reservation :=
  { token := "T2", iris_id := "IRIS-0002", status := ReservationStatus.active,
    expires_at := 999999 }

/-- The C4 store before the webhook call. -/
def c4State : RegistryState :=
  { artworks := [c4ArtA, c4ArtB], reservations := [c4ResA, c4ResB],
    events := [], receipts := [] }

/-- A valid webhook carrying both reservation tokens. -/
def c4Input : WebhookInput :=
  { rawBodyPresent := true, hmacHeader := some "h", webhookId := some "W9",
    hmacValid := true, tokens := ["T1", "T2"],
    orderNumberDisplay := some "#1002", customerEmail := some "buyer@x.co" }

/-- The store after the webhook call: the receipt is recorded, the live
claim is confirmed and its unit assigned, but the expired claim's
reservation is still `active` — the `status: "expired"` write was rolled
back together with the throw that failed the claim. -/
def c4Expected : RegistryState :=
  { artworks := [c4ArtA,
      { c4ArtB with status := ArtworkStatus.assigned,
                    assigned_order_id := some "#1002",
                    assigned_customer_email := some "buyer@x.co",
                    pin_code := some "654321", pin_last4 := some "4321",
                    pin_attempts := 0, pin_locked_until := none }],
    reservations := [c4ResA, { c4ResB with status := ReservationStatus.confirmed }],
    events := [{ iris_id := "IRIS-0002", type := "assigned", actor := "shopify" }],
    receipts := ["W9"] }

/-- C4 evidence at the failing input: the expired claim fails and the other
claim in the same payload is still confirmed with partial success
reported (`failedCount = 1`), the expired claim's unit keeps its prior
state and no PIN is generated for it — but, contrary to the claim and the
spec, the expired reservation's status is still `active` afterwards, not
`expired`: the flip is written inside the transaction whose subsequent
throw rolls it back. -/
theorem confirm_expired_rollback_evidence :
    c4ResA.expires_at < 2000 ∧
    applyWebhook 2000 c4Input (fun _ => 0) (fun _ => false) c4State =
      (WebhookResult.processed 1, c4Expected) ∧
    (findReservation c4Expected "T1").map (fun r => r.status) =
      some ReservationStatus.active ∧
    (findArtwork c4Expected "IRIS-0001") = some c4ArtA ∧
    (findReservation c4Expected "T2").map (fun r => r.status) =
      some ReservationStatus.confirmed := by
  decide

/-- The row mutation performed by a failed PIN attempt: increment the
attempt counter and set the lockout expiry exactly when the new counter
reaches the threshold (resetting it to null otherwise). -/
def bumpAttempts (now : Nat) (aw : Artwork) : Artwork :=
  { aw with pin_attempts := aw.pin_attempts + 1
            pin_locked_until :=
              if aw.pin_attempts + 1 ≥ MAX_ATTEMPTS then
                some (now + LOCK_MINUTES * 60 * 1000)
              else none }

/-- The store after a failed PIN attempt: the row mutation above plus an
`activation_failed` Event, persisted in one transaction. -/
def mismatchState (now : Nat) (id email : String) (aw : Artwork)
    (s : RegistryState) : RegistryState :=
  { s with
    artworks := updateArtworkList s.artworks id (fun a =>
      { a with pin_attempts := aw.pin_attempts + 1
               pin_locked_until :=
                 if aw.pin_attempts + 1 ≥ MAX_ATTEMPTS then
                   some (now + LOCK_MINUTES * 60 * 1000)
                 else none })
    events := s.events ++
      [{ iris_id := id, type := "activation_failed", actor := email }] }

theorem verify_wrong_pin (now : Nat) (ft : String) (i p e : Option String)
    (s : RegistryState) (aw : Artwork)
    (hfind : findArtwork s (normIris i) = some aw)
    (hi : normIris i ≠ "") (hp : normPin p ≠ "") (he : normEmail e ≠ "")
    (hass : aw.status = ArtworkStatus.assigned)
    (htr : jsTruthy aw.pin_code = true)
    (hlock : ∀ t, aw.pin_locked_until = some t → t ≤ now)
    (hne : aw.pin_code.getD "" ≠ normPin p) :
    handleActivateVerify now ft i p e s =
      (VerifyResult.invalidPin,
        mismatchState now (normIris i) (normEmail e) aw s) := by
  rw [mismatchState]
  rw [handleActivateVerify,
    if_neg (by rintro (h | h | h); exacts [hi h, hp h, he h]), hfind]
  simp only []
  rw [if_neg (by rw [hass]; simp), if_neg (by rw [hass]; simp),
    if_neg (by rw [htr]; simp)]
  cases hlk : aw.pin_locked_until with
  | some t =>
      simp only []
      rw [if_neg (by have := hlock t hlk; omega), verifyPinStage, if_pos hne]
  | none =>
      simp only []
      rw [verifyPinStage, if_pos hne]

theorem verify_locked (now : Nat) (ft : String) (i p e : Option String)
    (s : RegistryState) (aw : Artwork) (t : Nat)
    (hfind : findArtwork s (normIris i) = some aw)
    (hi : normIris i ≠ "") (hp : normPin p ≠ "") (he : normEmail e ≠ "")
    (hass : aw.status = ArtworkStatus.assigned)
    (htr : jsTruthy aw.pin_code = true)
    (hlk : aw.pin_locked_until = some t) (hnow : now < t) :
    handleActivateVerify now ft i p e s = (VerifyResult.tooManyAttempts t, s) := by
  rw [handleActivateVerify,
    if_neg (by rintro (h | h | h); exacts [hi h, hp h, he h]), hfind]
  simp only []
  rw [if_neg (by rw [hass]; simp), if_neg (by rw [hass]; simp),
    if_neg (by rw [htr]; simp), hlk]
  simp only []
  rw [if_pos hnow]

theorem findArtwork_mismatchState (now : Nat) (id em : String) (aw : Artwork)
    (s : RegistryState) (hfind : findArtwork s id = some aw) :
    findArtwork (mismatchState now id em aw s) id = some (bumpAttempts now aw) := by
  have h := find?_updateArtworkList s.artworks id (fun a =>
    { a with pin_attempts := aw.pin_attempts + 1
             pin_locked_until :=
               if aw.pin_attempts + 1 ≥ MAX_ATTEMPTS then
                 some (now + LOCK_MINUTES * 60 * 1000)
               else none }) (fun a => rfl)
  simp only [findArtwork, mismatchState]
  rw [h, show s.artworks.find? (fun a => a.iris_id == id) = some aw from hfind]
  rfl

theorem lockout_scenario (ft : String) (i wrongp p e : Option String)
    (s : RegistryState) (aw : Artwork) (t1 t2 t3 t4 t5 t6 : Nat)
    (hfind : findArtwork s (normIris i) = some aw)
    (hi : normIris i ≠ "") (hw : normPin wrongp ≠ "") (hp : normPin p ≠ "")
    (he : normEmail e ≠ "")
    (hass : aw.status = ArtworkStatus.assigned)
    (htr : jsTruthy aw.pin_code = true)
    (hmatch : aw.pin_code.getD "" = normPin p)
    (hdiff : normPin wrongp ≠ normPin p)
    (hatt : aw.pin_attempts = 0)
    (hlkN : aw.pin_locked_until = none)
    (ht6 : t6 < t5 + LOCK_MINUTES * 60 * 1000) :
    ∃ s1 s2 s3 s4 s5 : RegistryState,
      handleActivateVerify t1 ft i wrongp e s = (VerifyResult.invalidPin, s1) ∧
      handleActivateVerify t2 ft i wrongp e s1 = (VerifyResult.invalidPin, s2) ∧
      handleActivateVerify t3 ft i wrongp e s2 = (VerifyResult.invalidPin, s3) ∧
      handleActivateVerify t4 ft i wrongp e s3 = (VerifyResult.invalidPin, s4) ∧
      handleActivateVerify t5 ft i wrongp e s4 = (VerifyResult.invalidPin, s5) ∧
      (∃ aw5, findArtwork s5 (normIris i) = some aw5 ∧ aw5.pin_attempts = 5 ∧
        aw5.pin_locked_until = some (t5 + LOCK_MINUTES * 60 * 1000)) ∧
      handleActivateVerify t6 ft i p e s5 =
        (VerifyResult.tooManyAttempts (t5 + LOCK_MINUTES * 60 * 1000), s5) := by
  have hne : aw.pin_code.getD "" ≠ normPin wrongp := by
    rw [hmatch]; exact fun hq => hdiff hq.symm
  -- step 1
  have H1 := verify_wrong_pin t1 ft i wrongp e s aw hfind hi hw he hass htr
    (fun t ht => absurd ht (by rw [hlkN]; simp)) hne
  have hf1 := findArtwork_mismatchState t1 (normIris i) (normEmail e) aw s hfind
  have hatt1 : (bumpAttempts t1 aw).pin_attempts = 1 := by
    simp [bumpAttempts, hatt]
  have hlk1 : (bumpAttempts t1 aw).pin_locked_until = none := by
    simp [bumpAttempts, hatt, MAX_ATTEMPTS]
  -- step 2
  have H2 := verify_wrong_pin t2 ft i wrongp e _ _ hf1 hi hw he hass htr
    (fun t ht => absurd ht (by rw [hlk1]; simp)) hne
  have hf2 := findArtwork_mismatchState t2 (normIris i) (normEmail e) _ _ hf1
  have hatt2 : (bumpAttempts t2 (bumpAttempts t1 aw)).pin_attempts = 2 := by
    simp [bumpAttempts, hatt]
  have hlk2 : (bumpAttempts t2 (bumpAttempts t1 aw)).pin_locked_until = none := by
    simp [bumpAttempts, hatt, MAX_ATTEMPTS]
  -- step 3
  have H3 := verify_wrong_pin t3 ft i wrongp e _ _ hf2 hi hw he hass htr
    (fun t ht => absurd ht (by rw [hlk2]; simp)) hne
  have hf3 := findArtwork_mismatchState t3 (normIris i) (normEmail e) _ _ hf2
  have hatt3 :
      (bumpAttempts t3 (bumpAttempts t2 (bumpAttempts t1 aw))).pin_attempts = 3 := by
    simp [bumpAttempts, hatt]
  have hlk3 :
      (bumpAttempts t3 (bumpAttempts t2 (bumpAttempts t1 aw))).pin_locked_until =
        none := by
    simp [bumpAttempts, hatt, MAX_ATTEMPTS]
  -- step 4
  have H4 := verify_wrong_pin t4 ft i wrongp e _ _ hf3 hi hw he hass htr
    (fun t ht => absurd ht (by rw [hlk3]; simp)) hne
  have hf4 := findArtwork_mismatchState t4 (normIris i) (normEmail e) _ _ hf3
  have hatt4 :
      (bumpAttempts t4 (bumpAttempts t3 (bumpAttempts t2 (bumpAttempts t1
        aw)))).pin_attempts = 4 := by
    simp [bumpAttempts, hatt]
  have hlk4 :
      (bumpAttempts t4 (bumpAttempts t3 (bumpAttempts t2 (bumpAttempts t1
        aw)))).pin_locked_until = none := by
    simp [bumpAttempts, hatt, MAX_ATTEMPTS]
  -- step 5: the counter reaches the threshold and the lockout is set
  have H5 := verify_wrong_pin t5 ft i wrongp e _ _ hf4 hi hw he hass htr
    (fun t ht => absurd ht (by rw [hlk4]; simp)) hne
  have hf5 := findArtwork_mismatchState t5 (normIris i) (normEmail e) _ _ hf4
  have hatt5 :
      (bumpAttempts t5 (bumpAttempts t4 (bumpAttempts t3 (bumpAttempts t2
        (bumpAttempts t1 aw))))).pin_attempts = 5 := by
    simp [bumpAttempts, hatt]
  have hlk5 :
      (bumpAttempts t5 (bumpAttempts t4 (bumpAttempts t3 (bumpAttempts t2
        (bumpAttempts t1 aw))))).pin_locked_until =
        some (t5 + LOCK_MINUTES * 60 * 1000) := by
    simp [bumpAttempts, hatt, MAX_ATTEMPTS]
  -- step 6: the correct PIN is rejected until the lockout expiry passes
  have H6 := verify_locked t6 ft i p e _ _ (t5 + LOCK_MINUTES * 60 * 1000) hf5
    hi hp he hass htr hlk5 ht6
  exact ⟨_, _, _, _, _, H1, H2, H3, H4, H5, ⟨_, hf5, hatt5, hlk5⟩, H6⟩

/-- C5: on a wrong PIN for an assigned unit with a PIN set and no lockout
in force, the attempt counter is incremented by one and the lockout expiry
is set to now + 60 minutes exactly when the new counter reaches the
threshold 5 (`MAX_ATTEMPTS = 5`, `LOCK_MINUTES = 60`); counter, lockout
and an `activation_failed` Event are persisted together, and the handler
answers invalid-PIN whether or not the lockout was newly triggered; after
5 consecutive wrong attempts the 6th attempt — even with the correct PIN
— is rejected with the unlock time while the lockout expiry has not
passed. -/
theorem pin_lockout_spec :
    (MAX_ATTEMPTS = 5 ∧ LOCK_MINUTES = 60) ∧
    (∀ (now : Nat) (aw : Artwork),
      ((bumpAttempts now aw).pin_locked_until =
          some (now + LOCK_MINUTES * 60 * 1000) ↔
        aw.pin_attempts + 1 ≥ MAX_ATTEMPTS) ∧
      (bumpAttempts now aw).pin_attempts = aw.pin_attempts + 1) ∧
    (∀ (now : Nat) (ft : String) (i p e : Option String) (s : RegistryState)
        (aw : Artwork),
      findArtwork s (normIris i) = some aw → normIris i ≠ "" →
      normPin p ≠ "" → normEmail e ≠ "" →
      aw.status = ArtworkStatus.assigned → jsTruthy aw.pin_code = true →
      (∀ t, aw.pin_locked_until = some t → t ≤ now) →
      aw.pin_code.getD "" ≠ normPin p →
      handleActivateVerify now ft i p e s =
        (VerifyResult.invalidPin,
          mismatchState now (normIris i) (normEmail e) aw s)) ∧
    (∀ (ft : String) (i wrongp p e : Option String) (s : RegistryState)
        (aw : Artwork) (t1 t2 t3 t4 t5 t6 : Nat),
      findArtwork s (normIris i) = some aw → normIris i ≠ "" →
      normPin wrongp ≠ "" → normPin p ≠ "" → normEmail e ≠ "" →
      aw.status = ArtworkStatus.assigned → jsTruthy aw.pin_code = true →
      aw.pin_code.getD "" = normPin p → normPin wrongp ≠ normPin p →
      aw.pin_attempts = 0 → aw.pin_locked_until = none →
      t6 < t5 + LOCK_MINUTES * 60 * 1000 →
      ∃ s1 s2 s3 s4 s5 : RegistryState,
        handleActivateVerify t1 ft i wrongp e s = (VerifyResult.invalidPin, s1) ∧
        handleActivateVerify t2 ft i wrongp e s1 = (VerifyResult.invalidPin, s2) ∧
        handleActivateVerify t3 ft i wrongp e s2 = (VerifyResult.invalidPin, s3) ∧
        handleActivateVerify t4 ft i wrongp e s3 = (VerifyResult.invalidPin, s4) ∧
        handleActivateVerify t5 ft i wrongp e s4 = (VerifyResult.invalidPin, s5) ∧
        (∃ aw5, findArtwork s5 (normIris i) = some aw5 ∧ aw5.pin_attempts = 5 ∧
          aw5.pin_locked_until = some (t5 + LOCK_MINUTES * 60 * 1000)) ∧
        handleActivateVerify t6 ft i p e s5 =
          (VerifyResult.tooManyAttempts (t5 + LOCK_MINUTES * 60 * 1000), s5)) := by
  refine ⟨⟨rfl, rfl⟩, ?_, ?_, ?_⟩
  · intro now aw
    constructor
    · by_cases h : aw.pin_attempts + 1 ≥ MAX_ATTEMPTS
      · simp [bumpAttempts, h]
      · simp [bumpAttempts, h]
    · simp [bumpAttempts]
  · intro now ft i p e s aw hfind hi hp he hass htr hlock hne
    exact verify_wrong_pin now ft i p e s aw hfind hi hp he hass htr hlock hne
  · intro ft i wrongp p e s aw t1 t2 t3 t4 t5 t6 hfind hi hw hp he hass htr
      hmatch hdiff hatt hlkN ht6
    exact lockout_scenario ft i wrongp p e s aw t1 t2 t3 t4 t5 t6 hfind hi hw hp
      he hass htr hmatch hdiff hatt hlkN ht6

/-- An assigned unit with PIN `123456`, zero attempts and no lockout. -/
def c5Artwork : Artwork :=
  { iris_id := "IRIS-0003", status := ArtworkStatus.assigned,
    pin_code := some "123456" }

/-- A one-unit store containing `c5Artwork`. -/
def c5State : RegistryState :=
  { artworks := [c5Artwork], reservations := [], events := [], receipts := [] }

/-- Witness for C5: a concrete run of five wrong attempts followed by a
rejected sixth attempt with the correct PIN. -/
theorem pin_lockout_spec_witness :
    ∃ s1 s2 s3 s4 s5 : RegistryState,
      handleActivateVerify 10 "T" (some "IRIS-0003") (some "000000")
        (some "e@x.co") c5State = (VerifyResult.invalidPin, s1) ∧
      handleActivateVerify 20 "T" (some "IRIS-0003") (some "000000")
        (some "e@x.co") s1 = (VerifyResult.invalidPin, s2) ∧
      handleActivateVerify 30 "T" (some "IRIS-0003") (some "000000")
        (some "e@x.co") s2 = (VerifyResult.invalidPin, s3) ∧
      handleActivateVerify 40 "T" (some "IRIS-0003") (some "000000")
        (some "e@x.co") s3 = (VerifyResult.invalidPin, s4) ∧
      handleActivateVerify 50 "T" (some "IRIS-0003") (some "000000")
        (some "e@x.co") s4 = (VerifyResult.invalidPin, s5) ∧
      (∃ aw5, findArtwork s5 (normIris (some "IRIS-0003")) = some aw5 ∧
        aw5.pin_attempts = 5 ∧
        aw5.pin_locked_until = some (50 + LOCK_MINUTES * 60 * 1000)) ∧
      handleActivateVerify 60 "T" (some "IRIS-0003") (some "123456")
        (some "e@x.co") s5 =
        (VerifyResult.tooManyAttempts (50 + LOCK_MINUTES * 60 * 1000), s5) :=
  pin_lockout_spec.2.2.2 "T" (some "IRIS-0003") (some "000000") (some "123456")
    (some "e@x.co") c5State c5Artwork 10 20 30 40 50 60 (by decide) (by decide)
    (by decide) (by decide) (by decide) (by decide) (by decide) (by decide)
    (by decide) (by decide) (by decide) (by decide)


/-- C8: on confirming a reservation claim, the stored PIN is
`artwork.pin_code ?? generatePin()` — a fresh random PIN is generated only
when the unit has none yet, an existing PIN is retained unchanged; the
PIN's last four digits are stored, the attempt counter and lockout fields
are reset, an `assigned` Event is appended, a `pin_generated` Event is
appended exactly when a new PIN was generated, and a freshly generated PIN
is a 6-character digit string. -/
theorem confirm_pin_spec (now pinVal : Nat) (ond ce : Option String)
    (tok : String) (s : RegistryState) (r : Reservation) (aw : Artwork)
    (hres : findReservation s tok = some r)
    (hact : r.status = ReservationStatus.active)
    (hexp : ¬ r.expires_at < now)
    (hart : findArtwork s r.iris_id = some aw) :
    ∃ st1, confirmTx now pinVal ond ce tok s = Except.ok (st1, r.iris_id) ∧
      (∃ awN, findArtwork st1 r.iris_id = some awN ∧
        awN.status = ArtworkStatus.assigned ∧
        awN.pin_code = some (aw.pin_code.getD (generatePin pinVal)) ∧
        (∀ pp, aw.pin_code = some pp → awN.pin_code = some pp) ∧
        (aw.pin_code = none → awN.pin_code = some (generatePin pinVal)) ∧
        awN.pin_last4 = some (sliceLast4 (aw.pin_code.getD (generatePin pinVal))) ∧
        awN.pin_attempts = 0 ∧ awN.pin_locked_until = none) ∧
      st1.events = s.events ++
        [{ iris_id := r.iris_id, type := "assigned", actor := "shopify" }] ++
        (if pinGeneratedFlag aw.pin_code (aw.pin_code.getD (generatePin pinVal))
         then [{ iris_id := r.iris_id, type := "pin_generated", actor := "system" }]
         else []) ∧
      (aw.pin_code = none →
        pinGeneratedFlag aw.pin_code (aw.pin_code.getD (generatePin pinVal)) = true) ∧
      (∀ pp, aw.pin_code = some pp → pp ≠ "" →
        pinGeneratedFlag aw.pin_code (aw.pin_code.getD (generatePin pinVal)) = false) ∧
      (pinVal < 1000000 → (generatePin pinVal).data.length = 6 ∧
        ∀ c ∈ (generatePin pinVal).data, c.isDigit = true) := by
  refine ⟨confirmedState pinVal ond ce tok r aw s, ?_, ?_, rfl, ?_, ?_, ?_⟩
  · rw [confirmTx, hres]
    simp only []
    rw [if_neg (by rw [hact]; simp), if_neg hexp, hart]
  · have h := find?_updateArtworkList s.artworks r.iris_id (fun a =>
      { a with status := ArtworkStatus.assigned
               assigned_order_id := ond
               assigned_customer_email := ce
               pin_code := some (aw.pin_code.getD (generatePin pinVal))
               pin_last4 := some (sliceLast4 (aw.pin_code.getD (generatePin pinVal)))
               pin_attempts := 0
               pin_locked_until := none }) (fun a => rfl)
    refine ⟨{ aw with status := ArtworkStatus.assigned
                      assigned_order_id := ond
                      assigned_customer_email := ce
                      pin_code := some (aw.pin_code.getD (generatePin pinVal))
                      pin_last4 :=
                        some (sliceLast4 (aw.pin_code.getD (generatePin pinVal)))
                      pin_attempts := 0
                      pin_locked_until := none }, ?_, rfl, rfl, ?_, ?_, rfl, rfl, rfl⟩
    · show (updateArtworkList s.artworks r.iris_id _).find? _ = _
      rw [h, show s.artworks.find? (fun a => a.iris_id == r.iris_id) = some aw
        from hart]
      rfl
    · intro pp hpp
      show some (aw.pin_code.getD (generatePin pinVal)) = some pp
      rw [hpp]
      rfl
    · intro hnone
      show some (aw.pin_code.getD (generatePin pinVal)) = some (generatePin pinVal)
      rw [hnone]
      rfl
  · intro hnone
    rw [hnone, pinGeneratedFlag]
    simp only [jsTruthy, Option.getD_none]
    have hne := generatePin_ne_empty pinVal
    simp [hne]
  · intro pp hpp hppne
    rw [hpp, pinGeneratedFlag]
    simp only [jsTruthy, Option.getD_some]
    simp [hppne]
  · intro hv
    exact ⟨generatePin_length pinVal hv, generatePin_all_digits pinVal⟩

/-- The reservation of the C8 witness store. -/
def c8Reservation : Reservation :=
  { token := "T8", iris_id := "IRIS-0004",
    status := ReservationStatus.active, expires_at := 9999 }

/-- The (PIN-less, reserved) unit of the C8 witness store. -/
def c8Artwork : Artwork :=
  { iris_id := "IRIS-0004", status := ArtworkStatus.reserved }

/-- The C8 witness store: a live reservation and its unit without a PIN. -/
def c8State : RegistryState :=
  { artworks := [c8Artwork], reservations := [c8Reservation], events := [],
    receipts := [] }

/-- Witness for C8 at a concrete store (fresh PIN case, draw 7). -/
theorem confirm_pin_spec_witness :
    ∃ st1, confirmTx 100 7 (some "#1") (some "b@x.co") "T8" c8State =
        Except.ok (st1, c8Reservation.iris_id) ∧
      (∃ awN, findArtwork st1 c8Reservation.iris_id = some awN ∧
        awN.status = ArtworkStatus.assigned ∧
        awN.pin_code = some (c8Artwork.pin_code.getD (generatePin 7)) ∧
        (∀ pp, c8Artwork.pin_code = some pp → awN.pin_code = some pp) ∧
        (c8Artwork.pin_code = none → awN.pin_code = some (generatePin 7)) ∧
        awN.pin_last4 =
          some (sliceLast4 (c8Artwork.pin_code.getD (generatePin 7))) ∧
        awN.pin_attempts = 0 ∧ awN.pin_locked_until = none) ∧
      st1.events = c8State.events ++
        [{ iris_id := c8Reservation.iris_id, type := "assigned",
           actor := "shopify" }] ++
        (if pinGeneratedFlag c8Artwork.pin_code
            (c8Artwork.pin_code.getD (generatePin 7))
         then [{ iris_id := c8Reservation.iris_id, type := "pin_generated",
                 actor := "system" }]
         else []) ∧
      (c8Artwork.pin_code = none →
        pinGeneratedFlag c8Artwork.pin_code
          (c8Artwork.pin_code.getD (generatePin 7)) = true) ∧
      (∀ pp, c8Artwork.pin_code = some pp → pp ≠ "" →
        pinGeneratedFlag c8Artwork.pin_code
          (c8Artwork.pin_code.getD (generatePin 7)) = false) ∧
      (7 < 1000000 → (generatePin 7).data.length = 6 ∧
        ∀ c ∈ (generatePin 7).data, c.isDigit = true) :=
  confirm_pin_spec 100 7 (some "#1") (some "b@x.co") "T8" c8State c8Reservation
    c8Artwork (by decide) (by decide) (by decide) (by decide)

/-- C10: proof retrieval returns the payload exactly when the unit exists,
is `activated`, has a rarity code and a stored proof, and the supplied
token is non-empty and equal to the unit's proof-access token; every other
combination of those conditions yields the same `not_found`; and the
`valid` flag of a returned payload is recomputed by re-verifying the
stored sibling path against the stored root via `computeLeaf` and
`verifyMerkleProof`, not read from storage. -/
theorem proof_retrieval_spec (sha256 : String → String) (irisIdRaw : String)
    (token? : Option String) (s : RegistryState)
    (hsan : sanitizeIrisId irisIdRaw ≠ "") :
    (∀ item rp, findArtwork s (sanitizeIrisId irisIdRaw) = some item →
      item.rarity_proof = some rp →
      item.status = ArtworkStatus.activated →
      jsTruthy item.rarity_code = true →
      token?.getD "" ≠ "" →
      item.proof_token = some (token?.getD "") →
      getProof sha256 irisIdRaw token? s =
        ProofResult.payload item.iris_id (item.rarity_code.getD "") rp.root
          rp.proof rp.nonce
          (verifyMerkleProof sha256
            (computeLeaf sha256 item.iris_id (item.rarity_code.getD "") rp.nonce)
            rp.proof rp.root)) ∧
    ((¬ ∃ item, findArtwork s (sanitizeIrisId irisIdRaw) = some item ∧
        item.rarity_proof ≠ none ∧ item.status = ArtworkStatus.activated ∧
        jsTruthy item.rarity_code = true ∧ token?.getD "" ≠ "" ∧
        item.proof_token = some (token?.getD "")) →
      getProof sha256 irisIdRaw token? s = ProofResult.notFound) := by
  constructor
  · intro item rp hfind hrp hstat htr htok hpt
    rw [getProof, if_neg hsan, hfind]
    simp only []
    rw [hrp]
    simp only []
    rw [if_neg (by rw [hstat]; simp), if_neg (by rw [htr]; simp),
      if_neg (by simpa using htok), if_neg (by rw [hpt]; simp)]
  · intro hnot
    rw [getProof, if_neg hsan]
    cases hfind : findArtwork s (sanitizeIrisId irisIdRaw) with
    | none => rfl
    | some item =>
        simp only []
        cases hrp : item.rarity_proof with
        | none => rfl
        | some rp =>
            simp only []
            by_cases hstat : item.status ≠ ArtworkStatus.activated
            · rw [if_pos hstat]
            · rw [if_neg hstat]
              push_neg at hstat
              by_cases htr : jsTruthy item.rarity_code = false
              · rw [if_pos htr]
              · rw [if_neg htr]
                rw [Bool.not_eq_false] at htr
                by_cases htok : token?.getD "" = ""
                · rw [if_pos htok]
                · rw [if_neg htok]
                  by_cases hpt : item.proof_token ≠ some (token?.getD "")
                  · rw [if_pos hpt]
                  · rw [if_neg hpt]
                    push_neg at hpt
                    exact absurd ⟨item, hfind, by rw [hrp]; simp, hstat, htr,
                      htok, hpt⟩ hnot

/-- The activated, proof-carrying unit of the C10 witness store. -/
def c10Artwork : Artwork :=
  { iris_id := "IRIS-0005", status := ArtworkStatus.activated,
    rarity_code := some "Rare",
    rarity_proof := some { nonce := "n0", proof := ["h1", "h2"], root := "r0" },
    proof_token := some "tk" }

/-- A one-unit store containing `c10Artwork`. -/
def c10State : RegistryState :=
  { artworks := [c10Artwork], reservations := [], events := [], receipts := [] }

/-- Witness for C10: a concrete retrieval with the matching token, whose
`valid` flag is the recomputed verification. -/
theorem proof_retrieval_spec_witness :
    getProof (fun x => "#" ++ x) "iris-0005" (some "tk") c10State =
      ProofResult.payload c10Artwork.iris_id (c10Artwork.rarity_code.getD "")
        "r0" ["h1", "h2"] "n0"
        (verifyMerkleProof (fun x => "#" ++ x)
          (computeLeaf (fun x => "#" ++ x) c10Artwork.iris_id
            (c10Artwork.rarity_code.getD "") "n0") ["h1", "h2"] "r0") :=
  (proof_retrieval_spec (fun x => "#" ++ x) "iris-0005" (some "tk") c10State
      (by decide)).1 c10Artwork { nonce := "n0", proof := ["h1", "h2"], root := "r0" }
    (by decide) (by decide) (by decide) (by decide) (by decide) (by decide)

/-! ## The reservation/unit invariant (C1) -/

/-- The predicate "an `active` reservation referencing unit `id`". -/
def activeRef (id : String) (r : Reservation) : Bool :=
  r.status == ReservationStatus.active && r.iris_id == id

/-- The claimed invariant: at most one active reservation references a
given unit, and a unit is `reserved` exactly when some active reservation
references it. -/
def ClaimInv (s : RegistryState) : Prop :=
  (∀ id, s.reservations.countP (activeRef id) ≤ 1) ∧
  (∀ a ∈ s.artworks,
    a.status = ArtworkStatus.reserved ↔
      ∃ r ∈ s.reservations,
        r.status = ReservationStatus.active ∧ r.iris_id = a.iris_id)

/-- Primary-key well-formedness enforced by the schema: unit identifiers
and reservation tokens are unique. -/
def WF (s : RegistryState) : Prop :=
  (s.artworks.map (fun a => a.iris_id)).Nodup ∧
  (s.reservations.map (fun r => r.token)).Nodup

/-- One row of the state created by `prisma/seed.ts`: a unit that is
`available` with no other fields set. -/
def initArtwork (id : String) : Artwork :=
  { iris_id := id, status := ArtworkStatus.available }

/-- The seeded pool as a store. -/
def initState (ids : List String) : RegistryState :=
  { artworks := ids.map initArtwork, reservations := [], events := [],
    receipts := [] }

/-- One state-changing operation of the claim: an allocation, an
external-event application (with any request inputs), or a reaper sweep.
The fresh reservation token of an allocation is the database-generated
UUID primary key, hence distinct from every existing token. -/
inductive Step : RegistryState → RegistryState → Prop
  | reserve (s : RegistryState) (now ttl pickIdx : Nat) (tok : String)
      (hfresh : tok ∉ s.reservations.map (fun r => r.token)) :
      Step s (reserveRandom now ttl pickIdx tok s).2
  | webhook (s : RegistryState) (now : Nat) (inp : WebhookInput)
      (pinVal : String → Nat) (fails : String → Bool) :
      Step s (applyWebhook now inp pinVal fails s).2
  | reap (s : RegistryState) (now : Nat) : Step s (reaperSweep now s)

/-- States reachable from a seeded pool through the claim's operations. -/
inductive Reachable : RegistryState → Prop
  | init (ids : List String) (hnd : ids.Nodup) : Reachable (initState ids)
  | step (s s2 : RegistryState) : Reachable s → Step s s2 → Reachable s2

theorem two_le_countP {α : Type} (p : α → Bool) :
    ∀ (l : List α) (a b : α), a ∈ l → b ∈ l → a ≠ b → p a = true →
      p b = true → 2 ≤ l.countP p
  | [], a, b, ha, _, _, _, _ => absurd ha (by simp)
  | x :: xs, a, b, ha, hb, hne, hpa, hpb => by
      rw [List.countP_cons]
      rcases List.mem_cons.mp ha with hax | hax
      · rcases List.mem_cons.mp hb with hbx | hbx
        · exact absurd (hax.trans hbx.symm) hne
        · have h1 : 0 < xs.countP p := List.countP_pos.mpr ⟨b, hbx, hpb⟩
          rw [if_pos (hax ▸ hpa)]
          omega
      · rcases List.mem_cons.mp hb with hbx | hbx
        · have h1 : 0 < xs.countP p := List.countP_pos.mpr ⟨a, hax, hpa⟩
          rw [if_pos (hbx ▸ hpb)]
          omega
        · have := two_le_countP p xs a b hax hbx hne hpa hpb
          omega

theorem nodup_map_inj {α β : Type} (f : α → β) (l : List α)
    (hnd : (l.map f).Nodup) :
    ∀ a ∈ l, ∀ b ∈ l, f a = f b → a = b := by
  induction l with
  | nil => intro a ha; simp at ha
  | cons x xs ih =>
      rw [List.map_cons, List.nodup_cons] at hnd
      intro a ha b hb hf
      rcases List.mem_cons.mp ha with hax | hax
      · rcases List.mem_cons.mp hb with hbx | hbx
        · rw [hax, hbx]
        · exact absurd (List.mem_map.mpr ⟨b, hbx, (hax ▸ hf).symm⟩) hnd.1
      · rcases List.mem_cons.mp hb with hbx | hbx
        · exact absurd (List.mem_map.mpr ⟨a, hax, (hbx ▸ hf)⟩) hnd.1
        · exact ih hnd.2 a hax b hbx hf

theorem activeRef_iff (id : String) (r : Reservation) :
    activeRef id r = true ↔
      r.status = ReservationStatus.active ∧ r.iris_id = id := by
  simp [activeRef]

theorem updateArtworkList_map_iris (l : List Artwork) (id : String)
    (f : Artwork → Artwork) (hf : ∀ a, (f a).iris_id = a.iris_id) :
    (updateArtworkList l id f).map (fun a => a.iris_id) =
      l.map (fun a => a.iris_id) := by
  rw [updateArtworkList, List.map_map]
  apply List.map_congr_left
  intro a _
  by_cases h : (a.iris_id == id) = true
  · simp only [Function.comp_apply, if_pos h, hf]
  · simp only [Function.comp_apply, if_neg h]

theorem updateReservationList_map_token (l : List Reservation) (tok : String)
    (f : Reservation → Reservation) (hf : ∀ r, (f r).token = r.token) :
    (updateReservationList l tok f).map (fun r => r.token) =
      l.map (fun r => r.token) := by
  rw [updateReservationList, List.map_map]
  apply List.map_congr_left
  intro r _
  by_cases h : (r.token == tok) = true
  · simp only [Function.comp_apply, if_pos h, hf]
  · simp only [Function.comp_apply, if_neg h]

theorem availableIds_mem (s : RegistryState) (irisId : String)
    (h : irisId ∈ availableIds s) :
    ∃ a ∈ s.artworks, a.iris_id = irisId ∧
      a.status = ArtworkStatus.available := by
  rw [availableIds] at h
  obtain ⟨a, ha, haid⟩ := List.mem_map.mp h
  exact ⟨a, List.mem_of_mem_filter ha, haid,
    by simpa using List.of_mem_filter ha⟩

theorem reserve_preserves (s : RegistryState) (now ttl pickIdx : Nat)
    (tok : String) (hfresh : tok ∉ s.reservations.map (fun r => r.token))
    (hwf : WF s) (hinv : ClaimInv s) :
    WF (reserveRandom now ttl pickIdx tok s).2 ∧
      ClaimInv (reserveRandom now ttl pickIdx tok s).2 := by
  rw [reserveRandom]
  cases hpick : (availableIds s).get? pickIdx with
  | none => exact ⟨hwf, hinv⟩
  | some irisId =>
      simp only []
      obtain ⟨a0, ha0mem, ha0id, ha0st⟩ :=
        availableIds_mem s irisId (List.get?_mem hpick)
      have hnoactive : s.reservations.countP (activeRef irisId) = 0 := by
        rw [List.countP_eq_zero]
        intro r hr hact
        rw [activeRef_iff] at hact
        have : a0.status = ArtworkStatus.reserved :=
          ((hinv.2 a0 ha0mem).mpr ⟨r, hr, hact.1, ha0id ▸ hact.2⟩)
        rw [ha0st] at this
        exact absurd this (by decide)
      have hmapid := updateArtworkList_map_iris s.artworks irisId
        (fun a => { a with status := ArtworkStatus.reserved }) (fun a => rfl)
      refine ⟨⟨?_, ?_⟩, ?_, ?_⟩
      · show (List.map (fun a => a.iris_id)
          (updateArtworkList s.artworks irisId
            (fun a => { a with status := ArtworkStatus.reserved }))).Nodup
        rw [hmapid]
        exact hwf.1
      · show (List.map (fun r => r.token)
          (s.reservations ++ [newReservation now ttl tok irisId])).Nodup
        rw [List.map_append, List.nodup_append]
        refine ⟨hwf.2, by simp, ?_⟩
        intro x hx hx2
        simp only [List.map_cons, List.map_nil, List.mem_singleton] at hx2
        rw [show (newReservation now ttl tok irisId).token = tok from rfl] at hx2
        rw [hx2] at hx
        exact hfresh hx
      · intro id
        show List.countP (activeRef id)
          (s.reservations ++ [newReservation now ttl tok irisId]) ≤ 1
        rw [List.countP_append]
        by_cases hid : id = irisId
        · subst hid
          rw [hnoactive]
          simp [activeRef, newReservation]
        · have hz : List.countP (activeRef id)
              [newReservation now ttl tok irisId] = 0 := by
            simp [activeRef, newReservation]
            intro h2
            exact absurd h2.symm hid
          rw [hz]
          have := hinv.1 id
          omega
      · intro b hb
        replace hb : b ∈ updateArtworkList s.artworks irisId
            (fun a => { a with status := ArtworkStatus.reserved }) := hb
        rw [updateArtworkList] at hb
        obtain ⟨a, ha, hba⟩ := List.mem_map.mp hb
        show b.status = ArtworkStatus.reserved ↔
          ∃ r ∈ s.reservations ++ [newReservation now ttl tok irisId],
            r.status = ReservationStatus.active ∧ r.iris_id = b.iris_id
        by_cases hid : (a.iris_id == irisId) = true
        · rw [if_pos hid] at hba
          rw [← hba]
          simp only [beq_iff_eq] at hid
          constructor
          · intro _
            exact ⟨newReservation now ttl tok irisId, by simp, rfl, by
              show irisId = a.iris_id
              rw [hid]⟩
          · intro _
            rfl
        · rw [if_neg hid] at hba
          rw [← hba]
          simp only [beq_iff_eq] at hid
          rw [hinv.2 a ha]
          constructor
          · rintro ⟨r, hr, h1, h2⟩
            exact ⟨r, by simp [hr], h1, h2⟩
          · rintro ⟨r, hr, h1, h2⟩
            rcases List.mem_append.mp hr with hr2 | hr2
            · exact ⟨r, hr2, h1, h2⟩
            · simp only [List.mem_singleton] at hr2
              rw [hr2] at h2
              exact absurd h2.symm hid

theorem confirm_extract (now pinVal : Nat) (ond ce : Option String)
    (tok : String) (s st1 : RegistryState) (irisId : String)
    (h : confirmTx now pinVal ond ce tok s = Except.ok (st1, irisId)) :
    ∃ r aw, findReservation s tok = some r ∧
      r.status = ReservationStatus.active ∧ ¬ r.expires_at < now ∧
      findArtwork s r.iris_id = some aw ∧ r.iris_id = irisId ∧
      confirmedState pinVal ond ce tok r aw s = st1 := by
  rw [confirmTx] at h
  cases hfr : findReservation s tok with
  | none => rw [hfr] at h; simp at h
  | some r =>
      rw [hfr] at h
      simp only [] at h
      by_cases h1 : r.status ≠ ReservationStatus.active
      · rw [if_pos h1] at h; simp at h
      · rw [if_neg h1] at h
        push_neg at h1
        by_cases h2 : r.expires_at < now
        · rw [if_pos h2] at h; simp at h
        · rw [if_neg h2] at h
          cases hfa : findArtwork s r.iris_id with
          | none => rw [hfa] at h; simp at h
          | some aw =>
              rw [hfa] at h
              simp only [Except.ok.injEq, Prod.mk.injEq] at h
              exact ⟨r, aw, rfl, h1, h2, hfa, h.2, h.1⟩

theorem confirm_preserves (now pinVal : Nat) (ond ce : Option String)
    (tok : String) (s st1 : RegistryState) (irisId : String)
    (hwf : WF s) (hinv : ClaimInv s)
    (h : confirmTx now pinVal ond ce tok s = Except.ok (st1, irisId)) :
    WF st1 ∧ ClaimInv st1 ∧ st1.reservations.countP (activeRef irisId) = 0 := by
  obtain ⟨r, aw, hfr, hact, hexp, hfa, hid, hst⟩ :=
    confirm_extract now pinVal ond ce tok s st1 irisId h
  subst hid
  rw [← hst]
  have hrmem : r ∈ s.reservations := List.mem_of_find?_eq_some hfr
  have hrtok : r.token = tok := by simpa using List.find?_some hfr
  have hractive : activeRef r.iris_id r = true :=
    (activeRef_iff r.iris_id r).mpr ⟨hact, rfl⟩
  -- the updated reservation table
  have hresv : (confirmedState pinVal ond ce tok r aw s).reservations =
      updateReservationList s.reservations tok
        (fun x => { x with status := ReservationStatus.confirmed }) := rfl
  have hzero : (updateReservationList s.reservations tok
      (fun x => { x with status := ReservationStatus.confirmed })).countP
        (activeRef r.iris_id) = 0 := by
    rw [updateReservationList, List.countP_map, List.countP_eq_zero]
    intro x hx hpx
    simp only [Function.comp_apply] at hpx
    by_cases htk : (x.token == tok) = true
    · rw [if_pos htk] at hpx
      rw [activeRef_iff] at hpx
      exact absurd hpx.1 (by simp)
    · rw [if_neg htk] at hpx
      have hxr : x ≠ r := by
        intro hexact
        rw [hexact] at htk
        exact htk (by simpa using hrtok)
      have := two_le_countP (activeRef r.iris_id) s.reservations x r hx hrmem
        hxr hpx hractive
      have hle := hinv.1 r.iris_id
      omega
  refine ⟨⟨?_, ?_⟩, ⟨?_, ?_⟩, ?_⟩
  · show (List.map (fun a => a.iris_id)
      (updateArtworkList s.artworks r.iris_id (fun a =>
        { a with status := ArtworkStatus.assigned
                 assigned_order_id := ond
                 assigned_customer_email := ce
                 pin_code := some (aw.pin_code.getD (generatePin pinVal))
                 pin_last4 := some (sliceLast4 (aw.pin_code.getD (generatePin pinVal)))
                 pin_attempts := 0
                 pin_locked_until := none }))).Nodup
    rw [updateArtworkList_map_iris s.artworks r.iris_id (fun a =>
      { a with status := ArtworkStatus.assigned
               assigned_order_id := ond
               assigned_customer_email := ce
               pin_code := some (aw.pin_code.getD (generatePin pinVal))
               pin_last4 := some (sliceLast4 (aw.pin_code.getD (generatePin pinVal)))
               pin_attempts := 0
               pin_locked_until := none }) (fun a => rfl)]
    exact hwf.1
  · show (List.map (fun x => x.token)
      (updateReservationList s.reservations tok (fun x =>
        { x with status := ReservationStatus.confirmed }))).Nodup
    rw [updateReservationList_map_token s.reservations tok (fun x =>
      { x with status := ReservationStatus.confirmed }) (fun x => rfl)]
    exact hwf.2
  · intro id
    rw [hresv, updateReservationList, List.countP_map]
    refine le_trans (List.countP_mono_left ?_) (hinv.1 id)
    intro x hx hpx
    simp only [Function.comp_apply] at hpx
    by_cases htk : (x.token == tok) = true
    · rw [if_pos htk] at hpx
      rw [activeRef_iff] at hpx
      exact absurd hpx.1 (by simp)
    · rw [if_neg htk] at hpx
      exact hpx
  · intro b hb
    replace hb : b ∈ updateArtworkList s.artworks r.iris_id _ := hb
    rw [updateArtworkList] at hb
    obtain ⟨a, ha, hba⟩ := List.mem_map.mp hb
    by_cases haid : (a.iris_id == r.iris_id) = true
    · rw [if_pos haid] at hba
      simp only [beq_iff_eq] at haid
      constructor
      · intro hbst
        rw [← hba] at hbst
        exact absurd hbst (by simp)
      · rintro ⟨r2, hr2mem, hr2act, hr2id⟩
        have hbid : b.iris_id = r.iris_id := by rw [← hba]; exact haid
        rw [hbid] at hr2id
        have : activeRef r.iris_id r2 = true :=
          (activeRef_iff r.iris_id r2).mpr ⟨hr2act, hr2id⟩
        have hz2 := List.countP_eq_zero.mp (hresv ▸ hzero) r2 hr2mem
        exact absurd this hz2
    · rw [if_neg haid] at hba
      simp only [beq_iff_eq] at haid
      rw [← hba]
      rw [hinv.2 a ha]
      constructor
      · rintro ⟨r2, hr2mem, hr2act, hr2id⟩
        have hr2tok : r2.token ≠ tok := by
          intro hq
          have : r2 = r := nodup_map_inj (fun x => x.token) s.reservations
            hwf.2 r2 hr2mem r hrmem (by show r2.token = r.token; rw [hq, hrtok])
          rw [this] at hr2id
          exact haid hr2id.symm
        refine ⟨r2, ?_, hr2act, hr2id⟩
        show r2 ∈ updateReservationList s.reservations tok _
        rw [updateReservationList]
        refine List.mem_map.mpr ⟨r2, hr2mem, ?_⟩
        rw [if_neg (by simpa using hr2tok)]
      · rintro ⟨r2, hr2mem, hr2act, hr2id⟩
        replace hr2mem : r2 ∈ updateReservationList s.reservations tok
          (fun x => { x with status := ReservationStatus.confirmed }) := hr2mem
        rw [updateReservationList] at hr2mem
        obtain ⟨x, hx, hxr2⟩ := List.mem_map.mp hr2mem
        by_cases htk : (x.token == tok) = true
        · rw [if_pos htk] at hxr2
          rw [← hxr2] at hr2act
          exact absurd hr2act (by simp)
        · rw [if_neg htk] at hxr2
          rw [← hxr2] at hr2act hr2id
          exact ⟨x, hx, hr2act, hr2id⟩
  · rw [hresv]
    exact hzero

theorem applyDownstream_preserves (fails : Bool) (irisId : String)
    (st : RegistryState) (hwf : WF st) (hinv : ClaimInv st)
    (hzero : st.reservations.countP (activeRef irisId) = 0) :
    WF (applyDownstream fails irisId st) ∧
      ClaimInv (applyDownstream fails irisId st) := by
  cases fails with
  | false => exact ⟨hwf, hinv⟩
  | true =>
      refine ⟨⟨?_, hwf.2⟩, hinv.1, ?_⟩
      · show (List.map (fun a => a.iris_id)
          (updateArtworkList st.artworks irisId (fun a =>
            { a with status := ArtworkStatus.shopify_failed }))).Nodup
        rw [updateArtworkList_map_iris st.artworks irisId (fun a =>
          { a with status := ArtworkStatus.shopify_failed }) (fun a => rfl)]
        exact hwf.1
      · intro b hb
        replace hb : b ∈ updateArtworkList st.artworks irisId (fun a =>
          { a with status := ArtworkStatus.shopify_failed }) := hb
        rw [updateArtworkList] at hb
        obtain ⟨a, ha, hba⟩ := List.mem_map.mp hb
        by_cases haid : (a.iris_id == irisId) = true
        · rw [if_pos haid] at hba
          simp only [beq_iff_eq] at haid
          constructor
          · intro hbst
            rw [← hba] at hbst
            exact absurd hbst (by simp)
          · rintro ⟨r2, hr2mem, hr2act, hr2id⟩
            have hbid : b.iris_id = irisId := by rw [← hba]; exact haid
            rw [hbid] at hr2id
            exact absurd ((activeRef_iff irisId r2).mpr ⟨hr2act, hr2id⟩)
              (List.countP_eq_zero.mp hzero r2 hr2mem)
        · rw [if_neg haid] at hba
          rw [← hba]
          exact hinv.2 a ha

theorem confirmLoop_preserves (now : Nat) (pinVal : String → Nat)
    (fails : String → Bool) (ond ce : Option String) :
    ∀ (toks : List String) (fc : Nat) (st : RegistryState), WF st → ClaimInv st →
      WF (confirmLoop now pinVal fails ond ce toks fc st).2 ∧
        ClaimInv (confirmLoop now pinVal fails ond ce toks fc st).2
  | [], _, st, hwf, hinv => ⟨hwf, hinv⟩
  | tok :: rest, fc, st, hwf, hinv => by
      rw [confirmLoop]
      cases hc : confirmTx now (pinVal tok) ond ce tok st with
      | error err =>
          cases err with
          | reservationNotActive =>
              exact confirmLoop_preserves now pinVal fails ond ce rest (fc + 1)
                st hwf hinv
          | reservationExpired =>
              exact confirmLoop_preserves now pinVal fails ond ce rest (fc + 1)
                st hwf hinv
          | updateFailed => exact ⟨hwf, hinv⟩
      | ok pr =>
          obtain ⟨hwf1, hinv1, hzero⟩ := confirm_preserves now (pinVal tok) ond
            ce tok st pr.1 pr.2 hwf hinv (by rw [hc])
          obtain ⟨hwf2, hinv2⟩ := applyDownstream_preserves (fails tok) pr.2
            pr.1 hwf1 hinv1 hzero
          exact confirmLoop_preserves now pinVal fails ond ce rest fc _ hwf2 hinv2

theorem applyWebhook_preserves (now : Nat) (inp : WebhookInput)
    (pinVal : String → Nat) (fails : String → Bool) (s : RegistryState)
    (hwf : WF s) (hinv : ClaimInv s) :
    WF (applyWebhook now inp pinVal fails s).2 ∧
      ClaimInv (applyWebhook now inp pinVal fails s).2 := by
  rw [applyWebhook]
  by_cases h1 : inp.rawBodyPresent = false
  · rw [if_pos h1]; exact ⟨hwf, hinv⟩
  · rw [if_neg h1]
    by_cases h2 : inp.hmacHeader.getD "" = ""
    · rw [if_pos h2]; exact ⟨hwf, hinv⟩
    · rw [if_neg h2]
      by_cases h3 : inp.webhookId.getD "" = ""
      · rw [if_pos h3]; exact ⟨hwf, hinv⟩
      · rw [if_neg h3]
        by_cases h4 : inp.hmacValid = false
        · rw [if_pos h4]; exact ⟨hwf, hinv⟩
        · rw [if_neg h4]
          by_cases h5 : inp.webhookId.getD "" ∈ s.receipts
          · rw [if_pos h5]; exact ⟨hwf, hinv⟩
          · rw [if_neg h5]
            by_cases h6 : inp.tokens = []
            · rw [if_pos h6]; exact ⟨hwf, hinv⟩
            · rw [if_neg h6]
              exact confirmLoop_preserves now pinVal fails
                inp.orderNumberDisplay inp.customerEmail inp.tokens 0
                { s with receipts := s.receipts ++ [inp.webhookId.getD ""] }
                ⟨hwf.1, hwf.2⟩ ⟨hinv.1, hinv.2⟩

theorem releaseOne_preserves (st : RegistryState) (r : Reservation)
    (hwf : WF st) (hinv : ClaimInv st) (rr : Reservation)
    (hrrmem : rr ∈ st.reservations) (hrrtok : rr.token = r.token)
    (hrrid : rr.iris_id = r.iris_id)
    (hrract : rr.status = ReservationStatus.active) :
    WF (releaseOne st r) ∧ ClaimInv (releaseOne st r) := by
  have hractive : activeRef r.iris_id rr = true :=
    (activeRef_iff r.iris_id rr).mpr ⟨hrract, hrrid⟩
  have hzero : (updateReservationList st.reservations r.token
      (fun x => { x with status := ReservationStatus.expired })).countP
        (activeRef r.iris_id) = 0 := by
    rw [updateReservationList, List.countP_map, List.countP_eq_zero]
    intro x hx hpx
    simp only [Function.comp_apply] at hpx
    by_cases htk : (x.token == r.token) = true
    · rw [if_pos htk] at hpx
      rw [activeRef_iff] at hpx
      exact absurd hpx.1 (by simp)
    · rw [if_neg htk] at hpx
      have hxr : x ≠ rr := by
        intro hexact
        rw [hexact] at htk
        exact htk (by simpa using hrrtok)
      have := two_le_countP (activeRef r.iris_id) st.reservations x rr hx
        hrrmem hxr hpx hractive
      have hle := hinv.1 r.iris_id
      omega
  refine ⟨⟨?_, ?_⟩, ⟨?_, ?_⟩⟩
  · show (List.map (fun a => a.iris_id) (st.artworks.map (fun a =>
      if a.iris_id == r.iris_id && a.status == ArtworkStatus.reserved then
        { a with status := ArtworkStatus.available }
      else a))).Nodup
    rw [List.map_map]
    have : (List.map ((fun a => a.iris_id) ∘ (fun a =>
        if a.iris_id == r.iris_id && a.status == ArtworkStatus.reserved then
          { a with status := ArtworkStatus.available }
        else a)) st.artworks) =
        List.map (fun a => a.iris_id) st.artworks := by
      apply List.map_congr_left
      intro a _
      by_cases h : (a.iris_id == r.iris_id &&
          a.status == ArtworkStatus.reserved) = true
      · simp only [Function.comp_apply, if_pos h]
      · simp only [Function.comp_apply, if_neg h]
    rw [this]
    exact hwf.1
  · show (List.map (fun x => x.token)
      (updateReservationList st.reservations r.token (fun x =>
        { x with status := ReservationStatus.expired }))).Nodup
    rw [updateReservationList_map_token st.reservations r.token (fun x =>
      { x with status := ReservationStatus.expired }) (fun x => rfl)]
    exact hwf.2
  · intro id
    show List.countP (activeRef id) (updateReservationList st.reservations
      r.token (fun x => { x with status := ReservationStatus.expired })) ≤ 1
    rw [updateReservationList, List.countP_map]
    refine le_trans (List.countP_mono_left ?_) (hinv.1 id)
    intro x hx hpx
    simp only [Function.comp_apply] at hpx
    by_cases htk : (x.token == r.token) = true
    · rw [if_pos htk] at hpx
      rw [activeRef_iff] at hpx
      exact absurd hpx.1 (by simp)
    · rw [if_neg htk] at hpx
      exact hpx
  · intro b hb
    replace hb : b ∈ st.artworks.map (fun a =>
      if a.iris_id == r.iris_id && a.status == ArtworkStatus.reserved then
        { a with status := ArtworkStatus.available }
      else a) := hb
    obtain ⟨a, ha, hba⟩ := List.mem_map.mp hb
    show b.status = ArtworkStatus.reserved ↔
      ∃ r2 ∈ updateReservationList st.reservations r.token (fun x =>
        { x with status := ReservationStatus.expired }),
        r2.status = ReservationStatus.active ∧ r2.iris_id = b.iris_id
    by_cases hguard : (a.iris_id == r.iris_id &&
        a.status == ArtworkStatus.reserved) = true
    · rw [if_pos hguard] at hba
      simp only [Bool.and_eq_true, beq_iff_eq] at hguard
      constructor
      · intro hbst
        rw [← hba] at hbst
        exact absurd hbst (by simp)
      · rintro ⟨r2, hr2mem, hr2act, hr2id⟩
        have hbid : b.iris_id = r.iris_id := by rw [← hba]; exact hguard.1
        rw [hbid] at hr2id
        exact absurd ((activeRef_iff r.iris_id r2).mpr ⟨hr2act, hr2id⟩)
          (List.countP_eq_zero.mp hzero r2 hr2mem)
    · rw [if_neg hguard] at hba
      rw [← hba]
      by_cases haid : a.iris_id = r.iris_id
      · have hanr : a.status ≠ ArtworkStatus.reserved := by
          intro hq
          exact hguard (by simp [haid, hq])
        constructor
        · intro hq; exact absurd hq hanr
        · rintro ⟨r2, hr2mem, hr2act, hr2id⟩
          rw [haid] at hr2id
          exact absurd ((activeRef_iff r.iris_id r2).mpr ⟨hr2act, hr2id⟩)
            (List.countP_eq_zero.mp hzero r2 hr2mem)
      · rw [hinv.2 a ha]
        constructor
        · rintro ⟨r2, hr2mem, hr2act, hr2id⟩
          have hr2tok : r2.token ≠ r.token := by
            intro hq
            have : r2 = rr := nodup_map_inj (fun x => x.token) st.reservations
              hwf.2 r2 hr2mem rr hrrmem
              (by show r2.token = rr.token; rw [hq, hrrtok])
            rw [this, hrrid] at hr2id
            exact haid hr2id.symm
          refine ⟨r2, ?_, hr2act, hr2id⟩
          show r2 ∈ updateReservationList st.reservations r.token _
          rw [updateReservationList]
          refine List.mem_map.mpr ⟨r2, hr2mem, ?_⟩
          rw [if_neg (by simpa using hr2tok)]
        · rintro ⟨r2, hr2mem, hr2act, hr2id⟩
          replace hr2mem : r2 ∈ updateReservationList st.reservations r.token
            (fun x => { x with status := ReservationStatus.expired }) := hr2mem
          rw [updateReservationList] at hr2mem
          obtain ⟨x, hx, hxr2⟩ := List.mem_map.mp hr2mem
          by_cases htk : (x.token == r.token) = true
          · rw [if_pos htk] at hxr2
            rw [← hxr2] at hr2act
            exact absurd hr2act (by simp)
          · rw [if_neg htk] at hxr2
            rw [← hxr2] at hr2act hr2id
            exact ⟨x, hx, hr2act, hr2id⟩

theorem reaperFold_preserves :
    ∀ (batch : List Reservation) (st : RegistryState), WF st → ClaimInv st →
      (∀ r2 ∈ batch, ∃ rr ∈ st.reservations, rr.token = r2.token ∧
        rr.iris_id = r2.iris_id ∧ rr.status = ReservationStatus.active) →
      (batch.map (fun r => r.token)).Nodup →
      WF (batch.foldl releaseOne st) ∧ ClaimInv (batch.foldl releaseOne st)
  | [], st, hwf, hinv, _, _ => ⟨hwf, hinv⟩
  | r :: rest, st, hwf, hinv, hsnap, hnd => by
      rw [List.foldl_cons]
      obtain ⟨rr, hrrmem, h1, h2, h3⟩ := hsnap r (by simp)
      obtain ⟨hwf1, hinv1⟩ := releaseOne_preserves st r hwf hinv rr hrrmem h1 h2 h3
      rw [List.map_cons, List.nodup_cons] at hnd
      apply reaperFold_preserves rest (releaseOne st r) hwf1 hinv1
      · intro r2 hr2
        obtain ⟨rr2, hrr2mem, e1, e2, e3⟩ := hsnap r2 (by simp [hr2])
        have htokne : rr2.token ≠ r.token := by
          rw [e1]
          intro hq
          exact hnd.1 (List.mem_map.mpr ⟨r2, hr2, hq⟩)
        refine ⟨rr2, ?_, e1, e2, e3⟩
        show rr2 ∈ updateReservationList st.reservations r.token _
        rw [updateReservationList]
        refine List.mem_map.mpr ⟨rr2, hrr2mem, ?_⟩
        rw [if_neg (by simpa using htokne)]
      · exact hnd.2

theorem reaperSweep_preserves (now : Nat) (s : RegistryState)
    (hwf : WF s) (hinv : ClaimInv s) :
    WF (reaperSweep now s) ∧ ClaimInv (reaperSweep now s) := by
  rw [reaperSweep]
  apply reaperFold_preserves (expiredBatch now s) s hwf hinv
  · intro r2 hr2
    rw [expiredBatch] at hr2
    have hmem := List.mem_of_mem_filter (List.mem_of_mem_take hr2)
    have hpred := List.of_mem_filter (List.mem_of_mem_take hr2)
    simp only [Bool.and_eq_true, beq_iff_eq] at hpred
    exact ⟨r2, hmem, rfl, rfl, hpred.1⟩
  · have hsub : (expiredBatch now s).Sublist s.reservations := by
      rw [expiredBatch]
      exact (List.take_sublist _ _).trans (List.filter_sublist _)
    exact (hsub.map (fun r => r.token)).nodup hwf.2

theorem initState_ok (ids : List String) (hnd : ids.Nodup) :
    WF (initState ids) ∧ ClaimInv (initState ids) := by
  refine ⟨⟨?_, ?_⟩, ⟨?_, ?_⟩⟩
  · show (List.map (fun a => a.iris_id) (ids.map initArtwork)).Nodup
    rw [List.map_map]
    have : (fun a => a.iris_id) ∘ initArtwork = fun id => id := by
      funext id; rfl
    rw [this]
    simpa using hnd
  · exact List.nodup_nil
  · intro id
    show List.countP (activeRef id) [] ≤ 1
    simp
  · intro a ha
    replace ha : a ∈ ids.map initArtwork := ha
    obtain ⟨id, _, hida⟩ := List.mem_map.mp ha
    constructor
    · intro hq
      rw [← hida] at hq
      exact absurd hq (by simp [initArtwork])
    · rintro ⟨r, hr, -⟩
      exact absurd hr (by simp [initState])

theorem step_preserves (s s2 : RegistryState) (hstep : Step s s2)
    (hwf : WF s) (hinv : ClaimInv s) : WF s2 ∧ ClaimInv s2 := by
  cases hstep with
  | reserve now ttl pickIdx tok hfresh =>
      exact reserve_preserves s now ttl pickIdx tok hfresh hwf hinv
  | webhook now inp pinVal fails =>
      exact applyWebhook_preserves now inp pinVal fails s hwf hinv
  | reap now => exact reaperSweep_preserves now s hwf hinv

theorem reachable_wf_inv (s : RegistryState) (hr : Reachable s) :
    WF s ∧ ClaimInv s := by
  induction hr with
  | init ids hnd => exact initState_ok ids hnd
  | step s s2 _ hstep ih => exact step_preserves s s2 hstep ih.1 ih.2

/-- C1: in every store reachable from the seeded pool through random
reservation, paid-webhook application and reaper sweeps, at most one
active reservation references any given unit, and a unit's status is
`reserved` exactly when some active reservation references it; moreover
each of the three operations preserves this invariant from any
well-formed state satisfying it. -/
theorem reservation_invariant_spec :
    (∀ s : RegistryState, Reachable s → ClaimInv s) ∧
    (∀ s s2 : RegistryState, WF s → ClaimInv s → Step s s2 →
      WF s2 ∧ ClaimInv s2) := by
  constructor
  · intro s hr
    exact (reachable_wf_inv s hr).2
  · intro s s2 hwf hinv hstep
    exact step_preserves s s2 hstep hwf hinv

theorem reservation_invariant_spec_witness :
    ClaimInv (initState ["IRIS-0001", "IRIS-0002"]) :=
  reservation_invariant_spec.1 (initState ["IRIS-0001", "IRIS-0002"])
    (Reachable.init ["IRIS-0001", "IRIS-0002"] (by decide))
